import Mathlib

/-
  Shallow embedding of the conductor/breaker selection and feeder aggregation
  engine of the CalculadoraNEC repository.

  Sources embedded here:
    - core/models.py        (LoadInput, InstallationParams, CableResult)
    - core/components.py    (Load, CircuitBreaker)
    - standards/nec_tables.py (tables and the two factor-lookup functions)
    - standards/nec_logic.py  (NECLogic: design current, voltage drop,
                               conductor+breaker selection, main feeder)
    - standards/nec.py        (NECCalculator.select_breaker)

  Python floats are modelled as exact numbers: table constants and ambient
  temperatures as rationals, electrical quantities (which involve sqrt 3 and
  arccos) as reals.  String fields that are pure presentation (the derating
  note of CableResult, the description of the feeder dict) are omitted; the
  rationale string of NECCalculator.select_breaker is kept because its
  "[CAPPED at 250%]" flag is behaviour the spec talks about.
-/

namespace CalculadoraNEC

/-! ## Data model (core/models.py) -/

inductive ConduitType
  | pvc
  | steel
  | aluminum
deriving DecidableEq

inductive InsulationRating
  | t60
  | t75
  | t90
deriving DecidableEq

/-- The `.value` of the Python `InsulationRating` enum. -/
def InsulationRating.value : InsulationRating → ℕ
  | .t60 => 60
  | .t75 => 75
  | .t90 => 90

structure LoadInput where
  name : String
  power_watts : ℝ
  voltage : ℝ
  phases : ℕ
  is_continuous : Bool
  is_motor : Bool
  power_factor : ℝ
  quantity : ℕ
  override_amps : Option ℝ

/-- Installation parameters.  `conductor_material` is omitted: the NEC logic
    never reads it (only copper tables are embedded, as in the source). -/
structure InstallationParams where
  length_meters : ℝ
  conduit_type : ConduitType
  insulation_rating : InsulationRating
  ambient_temp_c : ℚ
  raceway_count : ℕ

/-- Result of `NECLogic.select_conductor_and_breaker`.  The free-text
    `reference_notes` field is not modelled. -/
structure CableResult where
  size : String
  ampacity : ℝ
  voltage_drop_percent : ℝ
  parallel_runs : ℕ
  breaker_rating : ℕ

/-- Result dictionary of `NECLogic.calculate_main_feeder` (the human-readable
    `description` entry is not modelled). -/
structure FeederResult where
  total_amps : ℝ
  cable_size : String
  parallel_runs : ℕ

/-! ## Tables (standards/nec_tables.py) -/

/-- NEC Table 310.15(B)(1) ambient correction factors.
    Entry: ((band_min, band_max), (factor at 60C, at 75C, at 90C)),
    in the insertion order of the Python dict. -/
def TEMP_CORRECTION_FACTORS : List ((ℚ × ℚ) × (ℚ × ℚ × ℚ)) :=
  [((0, 10), (1.29, 1.20, 1.15)),
   ((11, 15), (1.22, 1.15, 1.12)),
   ((16, 20), (1.15, 1.11, 1.08)),
   ((21, 25), (1.08, 1.05, 1.04)),
   ((26, 30), (1.00, 1.00, 1.00)),
   ((31, 35), (0.91, 0.94, 0.96)),
   ((36, 40), (0.82, 0.88, 0.91)),
   ((41, 45), (0.71, 0.82, 0.87)),
   ((46, 50), (0.58, 0.75, 0.82)),
   ((51, 55), (0.41, 0.67, 0.76)),
   ((56, 60), (0.00, 0.58, 0.71)),
   ((61, 70), (0.00, 0.47, 0.65))]

/-- `band.get(insulation_rating, 1.0)`: select the factor of a band for a
    given integer rating; any rating other than 60/75/90 gets the dict
    default 1.0. -/
def ratingSelect (fs : ℚ × ℚ × ℚ) (rating : ℕ) : ℚ :=
  if rating = 60 then fs.1
  else if rating = 75 then fs.2.1
  else if rating = 90 then fs.2.2
  else 1

/-- NEC Table 310.15(C)(1) grouping factors, as (max_conductors, factor),
    already in the ascending key order that `sorted(GROUPING_FACTORS.keys())`
    produces in `get_grouping_factor`. -/
def GROUPING_FACTORS : List (ℕ × ℚ) :=
  [(3, 1.0), (6, 0.80), (9, 0.70), (20, 0.50), (30, 0.45), (40, 0.40), (100, 0.35)]

/-- NEC Table 310.16, copper: (size, amps at 60C, at 75C, at 90C). -/
def NEC_310_16_COPPER : List (String × ℕ × ℕ × ℕ) :=
  [("14", 15, 20, 25),
   ("12", 20, 25, 30),
   ("10", 30, 35, 40),
   ("8", 40, 50, 55),
   ("6", 55, 65, 75),
   ("4", 70, 85, 95),
   ("3", 85, 100, 115),
   ("2", 95, 115, 130),
   ("1", 110, 130, 145),
   ("1/0", 125, 150, 170),
   ("2/0", 145, 175, 195),
   ("3/0", 165, 200, 225),
   ("4/0", 195, 230, 260),
   ("250", 215, 255, 290),
   ("300", 240, 285, 320),
   ("350", 260, 310, 350),
   ("400", 280, 335, 380),
   ("500", 320, 380, 430),
   ("600", 350, 420, 475),
   ("700", 385, 460, 520),
   ("750", 400, 475, 535),
   ("800", 410, 490, 555),
   ("900", 435, 520, 585),
   ("1000", 455, 545, 615),
   ("1250", 495, 590, 665),
   ("1500", 525, 625, 705),
   ("1750", 545, 650, 735),
   ("2000", 555, 665, 750)]

/-- Membership test `size in NEC_310_16_COPPER`. -/
def inAmpacityTable (size : String) : Bool :=
  (NEC_310_16_COPPER.find? (fun e => decide (e.1 = size))).isSome

/-- `NEC_310_16_COPPER.get(size, {}).get(rating, 0)`: ampacity lookup with
    default 0 for a size missing from the table.  For sizes present in the
    table a rating argument of 60/75/90 selects the matching column (the code
    only ever passes these three values, through `InsulationRating.value` or
    the literal 75). -/
def ampD (size : String) (rating : ℕ) : ℕ :=
  match NEC_310_16_COPPER.find? (fun e => decide (e.1 = size)) with
  | some e => if rating = 60 then e.2.1 else if rating = 75 then e.2.2.1 else e.2.2.2
  | none => 0

/-- NEC Chapter 9 Table 9 impedance data: (size, (R, X) in PVC, (R, X) in
    steel).  Every entry of the Python dict carries both conduit columns, so
    the `.get(lookup_conduit, (0.1, 0.1))` default in
    `calculate_voltage_drop` is unreachable and the row is modelled as a
    total pair of columns. -/
def TABLE_9_IMPEDANCE : List (String × (ℚ × ℚ) × (ℚ × ℚ)) :=
  [("14", (3.1, 0.048), (3.1, 0.060)),
   ("12", (2.0, 0.046), (2.0, 0.057)),
   ("10", (1.2, 0.044), (1.2, 0.055)),
   ("8", (0.78, 0.052), (0.78, 0.066)),
   ("6", (0.49, 0.051), (0.49, 0.063)),
   ("4", (0.31, 0.048), (0.31, 0.059)),
   ("3", (0.25, 0.047), (0.25, 0.058)),
   ("2", (0.19, 0.045), (0.20, 0.057)),
   ("1", (0.15, 0.046), (0.16, 0.057)),
   ("1/0", (0.12, 0.044), (0.13, 0.055)),
   ("2/0", (0.10, 0.043), (0.10, 0.054)),
   ("3/0", (0.077, 0.042), (0.082, 0.052)),
   ("4/0", (0.062, 0.041), (0.067, 0.051)),
   ("250", (0.052, 0.041), (0.054, 0.052)),
   ("300", (0.044, 0.041), (0.045, 0.051)),
   ("350", (0.038, 0.040), (0.039, 0.050)),
   ("400", (0.033, 0.040), (0.035, 0.049)),
   ("500", (0.027, 0.039), (0.029, 0.048)),
   ("600", (0.023, 0.039), (0.025, 0.048))]

/-- `get_temp_correction` of standards/nec_tables.py: first matching band of
    the dict wins; otherwise ambient ≤ 20 falls back to 1.0, ambient ≥ 71
    to 0.0, and anything left (the gaps between integer bands above 20)
    to the final `return 1.0`. -/
def get_temp_correction (temp_c : ℚ) (insulation_rating : ℕ) : ℚ :=
  match TEMP_CORRECTION_FACTORS.find?
      (fun b => decide (b.1.1 ≤ temp_c) && decide (temp_c ≤ b.1.2)) with
  | some b => ratingSelect b.2 insulation_rating
  | none =>
    if temp_c ≤ 20 then 1
    else if 71 ≤ temp_c then 0
    else 1

/-- `get_grouping_factor` of standards/nec_tables.py: first sorted key with
    `count ≤ limit`, else the 0.35 fallback. -/
def get_grouping_factor (count : ℕ) : ℚ :=
  match GROUPING_FACTORS.find? (fun p => decide (count ≤ p.1)) with
  | some p => p.2
  | none => 0.35

/-! ## NECLogic (standards/nec_logic.py) -/

/-- Standard breaker ratings, NEC 240.6(A).  The identical literal appears in
    standards/nec_logic.py (module constant) and standards/nec.py
    (`NECCalculator.BREAKER_RATINGS`). -/
def BREAKER_RATINGS : List ℕ :=
  [15, 20, 25, 30, 35, 40, 45, 50, 60, 70, 80, 90, 100, 110, 125, 150, 175,
   200, 225, 250, 300, 350, 400, 500, 600, 800, 1000, 1200]

namespace NECLogic

open Classical in
/-- `NECLogic.calculate_design_current`. -/
noncomputable def calculate_design_current (load : LoadInput) : ℝ :=
  let i_base :=
    match load.override_amps with
    | some a => a
    | none =>
      if load.phases = 1 then
        load.power_watts / (load.voltage * load.power_factor)
      else
        load.power_watts / (Real.sqrt 3 * load.voltage * load.power_factor)
  let factor : ℝ := if load.is_continuous then 1.25 else 1
  i_base * factor

open Classical in
/-- `NECLogic.calculate_voltage_drop`.  An aluminum conduit is mapped to the
    PVC (non-magnetic) impedance column; a size missing from Table 9 returns
    the 999.0 sentinel. -/
noncomputable def calculate_voltage_drop (current : ℝ) (size_awg : String)
    (params : InstallationParams) (voltage : ℝ) (phases : ℕ) (pf : ℝ) : ℝ :=
  let lookup_conduit :=
    if params.conduit_type = ConduitType.aluminum then ConduitType.pvc
    else params.conduit_type
  match TABLE_9_IMPEDANCE.find? (fun e => decide (e.1 = size_awg)) with
  | none => 999
  | some e =>
    let rx : ℚ × ℚ := if lookup_conduit = ConduitType.steel then e.2.2 else e.2.1
    let theta := Real.arccos pf
    let z_eff : ℝ := (rx.1 : ℝ) * Real.cos theta + (rx.2 : ℝ) * Real.sin theta
    let length_ft := params.length_meters * 3.28084
    let k : ℝ := if phases = 3 then 1.732 else 2
    let vd_volts := (k * current * z_eff * length_ft) / 1000
    (vd_volts / voltage) * 100

open Classical in
/-- `actual_load` of the selection loop: the current actually flowing,
    `i_req / 1.25` for a continuous load, else `i_req`. -/
noncomputable def actual_load (load : LoadInput) : ℝ :=
  if load.is_continuous then calculate_design_current load / 1.25
  else calculate_design_current load

/-- Combined derating factor `f_temp * f_group` of
    `select_conductor_and_breaker`. -/
def total_derating (params : InstallationParams) : ℚ :=
  get_temp_correction params.ambient_temp_c params.insulation_rating.value *
    get_grouping_factor params.raceway_count

/-- The fixed ordered candidate size list of `select_conductor_and_breaker`. -/
def selectionSizes : List String :=
  ["14", "12", "10", "8", "6", "4", "3", "2", "1", "1/0", "2/0", "3/0", "4/0",
   "250", "300", "350", "400", "500", "600", "700", "750", "800", "900",
   "1000", "1250", "1500", "1750", "2000"]

/-- Derated ampacity of a size: ampacity at the conductor's insulation rating
    times the combined derating factor. -/
noncomputable def deratedAmps (params : InstallationParams) (size : String) : ℝ :=
  (ampD size params.insulation_rating.value : ℝ) * (total_derating params : ℝ)

open Classical in
/-- The size-search loop of `select_conductor_and_breaker`, returning
    (selected size, selected ampacity, final voltage drop); falling off the
    list yields the `("MAX_EXCEEDED", 0.0, 0.0)` state the loop started
    with. -/
noncomputable def selectLoop (load : LoadInput) (params : InstallationParams) :
    List String → String × ℝ × ℝ
  | [] => ("MAX_EXCEEDED", 0, 0)
  | size :: rest =>
    if inAmpacityTable size = false then selectLoop load params rest
    else if (ampD size 75 : ℝ) < calculate_design_current load then
      selectLoop load params rest
    else if deratedAmps params size < actual_load load then
      selectLoop load params rest
    else
      let vd := calculate_voltage_drop (actual_load load) size params
        load.voltage load.phases load.power_factor
      if vd ≤ 3 then (size, min (ampD size 75 : ℝ) (deratedAmps params size), vd)
      else selectLoop load params rest

open Classical in
/-- The breaker loop at the end of `select_conductor_and_breaker`:
    first standard rating ≥ `i_req`, keeping the initial 15 when no rating
    qualifies. -/
noncomputable def breakerPick (i_req : ℝ) : ℕ :=
  (BREAKER_RATINGS.find? (fun (b : ℕ) => decide (i_req ≤ (b : ℝ)))).getD 15

/-- `NECLogic.select_conductor_and_breaker`. -/
noncomputable def select_conductor_and_breaker (load : LoadInput)
    (params : InstallationParams) : CableResult :=
  let r := selectLoop load params selectionSizes
  { size := r.1
    ampacity := r.2.1
    voltage_drop_percent := r.2.2
    parallel_runs := 1
    breaker_rating := breakerPick (calculate_design_current load) }

open Classical in
/-- The per-unit current block that `calculate_main_feeder` repeats for
    motors and for other loads: the override when present, else the
    single/three-phase power formula. -/
noncomputable def unit_current (l : LoadInput) : ℝ :=
  match l.override_amps with
  | some a => a
  | none =>
    if l.phases = 1 then l.power_watts / (l.voltage * l.power_factor)
    else l.power_watts / (Real.sqrt 3 * l.voltage * l.power_factor)

open Classical in
/-- Running maximum `max_motor_amps_unit` over the motor loop
    (starting from 0.0, updated whenever `i_unit > acc`). -/
noncomputable def maxMotorUnit (motors : List LoadInput) : ℝ :=
  motors.foldl (fun acc m => if acc < unit_current m then unit_current m else acc) 0

/-- Motor loop contribution to `total_amps`: each unit current times its
    quantity. -/
noncomputable def motorSum (motors : List LoadInput) : ℝ :=
  motors.foldl (fun acc m => acc + unit_current m * (m.quantity : ℝ)) 0

open Classical in
/-- Non-motor loop contribution to `total_amps`: `line_amps * 1.25` for
    continuous loads, `line_amps` otherwise. -/
noncomputable def otherSum (others : List LoadInput) : ℝ :=
  others.foldl
    (fun acc l =>
      acc + (if l.is_continuous then unit_current l * (l.quantity : ℝ) * 1.25
             else unit_current l * (l.quantity : ℝ))) 0

open Classical in
/-- The aggregated `total_amps` of `calculate_main_feeder`: motors, the
    25%-of-largest-motor surcharge (added only when the running maximum is
    positive), other loads, then the user demand factor when < 1.0. -/
noncomputable def feederTotal (loads : List LoadInput) (user_demand_factor : ℝ) : ℝ :=
  let motors := loads.filter (fun l => l.is_motor)
  let others := loads.filter (fun l => !l.is_motor)
  let m := maxMotorUnit motors
  let total := motorSum motors + (if 0 < m then m * 0.25 else 0) + otherSum others
  if user_demand_factor < 1 then total * user_demand_factor else total

/-- The ordered parallel-capable size list of the `> 400 A` branch
    (starts at 1/0). -/
def feederSizes : List String :=
  ["1/0", "2/0", "3/0", "4/0", "250", "300", "350", "400", "500", "600",
   "750", "800", "1000", "1250", "1500", "1750", "2000"]

/-- The full size list of the `≤ 400 A` branch. -/
def fullSizes : List String :=
  ["14", "12", "10", "8", "6", "4", "3", "2", "1"] ++ feederSizes

open Classical in
/-- Inner loop over `feederSizes`: first size present in the ampacity table
    whose 75C ampacity covers the per-set current. -/
noncomputable def findFeederSize (per : ℝ) : Option String :=
  feederSizes.find? (fun s => inAmpacityTable s && decide (per ≤ (ampD s 75 : ℝ)))

open Classical in
/-- The `for n in range(1, 10)` search of `calculate_main_feeder`, carrying
    the `(selected_size, num_runs)` state.  A hit at `n > 1` breaks; a hit at
    `n = 1` breaks only when the per-set current is ≤ 420, otherwise the
    assignment sticks and the search continues. -/
noncomputable def feederRunsLoop (total : ℝ) :
    List ℕ → String × ℕ → String × ℕ
  | [], st => st
  | n :: rest, st =>
    match findFeederSize (total / (n : ℝ)) with
    | some s =>
      if 1 < n then (s, n)
      else if total / (n : ℝ) ≤ 420 then (s, n)
      else feederRunsLoop total rest (s, n)
    | none => feederRunsLoop total rest st

open Classical in
/-- `NECLogic.calculate_main_feeder`. -/
noncomputable def calculate_main_feeder (loads : List LoadInput)
    (user_demand_factor : ℝ) : FeederResult :=
  let total_amps := feederTotal loads user_demand_factor
  if 400 < total_amps then
    let r := feederRunsLoop total_amps (List.range' 1 9) ("TBD", 1)
    { total_amps := total_amps, cable_size := r.1, parallel_runs := r.2 }
  else
    { total_amps := total_amps
      cable_size :=
        (fullSizes.find? (fun s => decide (total_amps ≤ (ampD s 75 : ℝ)))).getD "TBD"
      parallel_runs := 1 }

/-- Spec-side description of a parallel-feeder result, per the claim: the
    run count is the smallest n ≥ 2 for which some permitted parallel size
    (the list starting at 1/0) has 75C ampacity covering total/n, and the
    size is the first (smallest) such size of the ordered list. -/
def feederParallelSpec (loads : List LoadInput) (user_demand_factor : ℝ) : Prop :=
  2 ≤ (calculate_main_feeder loads user_demand_factor).parallel_runs ∧
  (∃ s ∈ feederSizes,
    (calculate_main_feeder loads user_demand_factor).total_amps /
      ((calculate_main_feeder loads user_demand_factor).parallel_runs : ℝ) ≤
      (ampD s 75 : ℝ)) ∧
  (∀ m : ℕ, 2 ≤ m →
    (∃ s ∈ feederSizes,
      (calculate_main_feeder loads user_demand_factor).total_amps / (m : ℝ) ≤
        (ampD s 75 : ℝ)) →
    (calculate_main_feeder loads user_demand_factor).parallel_runs ≤ m) ∧
  (calculate_main_feeder loads user_demand_factor).cable_size =
    (findFeederSize ((calculate_main_feeder loads user_demand_factor).total_amps /
      ((calculate_main_feeder loads user_demand_factor).parallel_runs : ℝ))).getD "TBD"

end NECLogic

/-! ## NECCalculator.select_breaker (standards/nec.py, over core/components.py) -/

/-- `core.components.Load`.  Its numeric fields only ever meet rational
    arithmetic (the three-phase formula uses the literal 1.732, not a square
    root), so they are modelled in ℚ. -/
structure Load where
  name : String
  power_kw : ℚ
  voltage : ℚ
  phases : ℕ
  power_factor : ℚ
  is_continuous : Bool
  is_motor : Bool

/-- The `current_amps` property of `core.components.Load`; a phase count
    other than 1 or 3 yields 0.0. -/
def Load.current_amps (l : Load) : ℚ :=
  if l.phases = 1 then l.power_kw * 1000 / (l.voltage * l.power_factor)
  else if l.phases = 3 then l.power_kw * 1000 / (l.voltage * 1.732 * l.power_factor)
  else 0

/-- `core.components.CircuitBreaker` (the breaking-capacity and model fields
    are presentation-only constants and are omitted). -/
structure CircuitBreaker where
  rated_current : ℕ
  poles : ℕ
deriving DecidableEq

namespace NECCalculator

/-- `NECCalculator.select_breaker`, returning the breaker and the rationale
    string.  Motor branch: first standard rating ≥ 150% of `current_amps`;
    if that exceeds 250% the reversed scan replaces it by the largest rating
    ≤ 250% (when one exists), with " [CAPPED at 250%]" appended to the
    rationale in either case; if no rating reaches 150% the final
    `if not selected_rating` fallback takes `BREAKER_RATINGS[-1]`. -/
def select_breaker (load : Load) : CircuitBreaker × String :=
  let ib := load.current_amps
  if load.is_motor then
    let min_target := ib * 1.5
    let max_allowed := ib * 2.5
    let ref := "NEC 430.52 (Motor 150-250%)"
    match BREAKER_RATINGS.find? (fun (r : ℕ) => decide (min_target ≤ (r : ℚ))) with
    | some sel =>
      if max_allowed < (sel : ℚ) then
        let ref2 := ref ++ " [CAPPED at 250%]"
        match BREAKER_RATINGS.reverse.find? (fun (r : ℕ) => decide ((r : ℚ) ≤ max_allowed)) with
        | some sel2 => (⟨sel2, load.phases⟩, ref2)
        | none => (⟨sel, load.phases⟩, ref2)
      else (⟨sel, load.phases⟩, ref)
    | none => (⟨BREAKER_RATINGS.getLast (by decide), load.phases⟩, ref)
  else
    let required := if load.is_continuous then ib * 1.25 else ib
    let ref :=
      if load.is_continuous then
        "NEC 240.6(A) & NEC 210.19(A)(1) (125% Continuous)"
      else "NEC 240.6(A)"
    match BREAKER_RATINGS.find? (fun (r : ℕ) => decide (required ≤ (r : ℚ))) with
    | some sel => (⟨sel, load.phases⟩, ref)
    | none => (⟨BREAKER_RATINGS.getLast (by decide), load.phases⟩, ref ++ " (Max)")

end NECCalculator

/-! ## Claim-side selection predicate and the loop characterization -/

/-! ## Spec-side definitions and concrete example inputs -/

/-- The example load of the spec: single-phase continuous 5000 W at 220 V,
    power factor 0.9. -/
def exLoad5000 : LoadInput :=
  { name := "ex", power_watts := 5000, voltage := 220, phases := 1,
    is_continuous := true, is_motor := false, power_factor := 0.9,
    quantity := 1, override_amps := none }

/-- The non-continuous twin of `exLoad5000`, whose design current is the
    base current of the example. -/
def exLoad5000base : LoadInput :=
  { exLoad5000 with is_continuous := false }

open Classical in
/-- Voltage-drop formula written the way the spec states it: look up (R, X)
    for the raceway material (aluminum raceway uses the non-magnetic PVC
    table), take `Z_eff = R·cos θ + X·sin θ` with `θ = arccos pf`, volts
    `k·I·Z_eff·length_ft/1000` with `k = 1.732` three-phase and `2`
    single-phase and the length converted to feet, percent
    `volts/voltage·100`; a size absent from Table 9 yields the large 999
    sentinel. -/
noncomputable def drop_percent_spec (current : ℝ) (size_awg : String)
    (params : InstallationParams) (voltage : ℝ) (phases : ℕ) (pf : ℝ) : ℝ :=
  let material :=
    if params.conduit_type = ConduitType.aluminum then ConduitType.pvc
    else params.conduit_type
  match TABLE_9_IMPEDANCE.find? (fun e => decide (e.1 = size_awg)) with
  | none => 999
  | some e =>
    let rx : ℚ × ℚ := if material = ConduitType.steel then e.2.2 else e.2.1
    let theta := Real.arccos pf
    let z_eff : ℝ := (rx.1 : ℝ) * Real.cos theta + (rx.2 : ℝ) * Real.sin theta
    let k : ℝ := if phases = 3 then 1.732 else 2
    (k * current * z_eff * (params.length_meters * 3.28084) / 1000) / voltage * 100

/-- A zero-length baseline installation: PVC conduit, 75C insulation,
    30 C ambient, 3 conductors (no derating, no voltage drop). -/
def exParams : InstallationParams :=
  { length_meters := 0, conduit_type := ConduitType.pvc,
    insulation_rating := InsulationRating.t75, ambient_temp_c := 30,
    raceway_count := 3 }

/-- `exParams` with a chosen ambient temperature. -/
def withAmbient (p : InstallationParams) (t : ℚ) : InstallationParams :=
  { p with ambient_temp_c := t }

/-- `exParams` with a chosen conductor-grouping count. -/
def withCount (p : InstallationParams) (c : ℕ) : InstallationParams :=
  { p with raceway_count := c }

/-- A non-motor, non-continuous load entered directly in amps. -/
def overrideLoad (amps : ℝ) : LoadInput :=
  { name := "ov", power_watts := 0, voltage := 220, phases := 1,
    is_continuous := false, is_motor := false, power_factor := 0.9,
    quantity := 1, override_amps := some amps }

/-- A motor variant of `overrideLoad`. -/
def overrideMotor (amps : ℝ) : LoadInput :=
  { overrideLoad amps with is_motor := true }

/-- A `core.components.Load` motor whose `current_amps` evaluates to the
    given rational (single phase, 1000 V, pf 1, power `amps` kW). -/
def motorLoad (amps : ℚ) : Load :=
  { name := "m", power_kw := amps, voltage := 1000, phases := 1,
    power_factor := 1, is_continuous := false, is_motor := true }

/-- A small concrete load schedule: two motors (10 A and 4 A unit currents)
    and one 7 A non-motor load. -/
def exFeederLoads : List LoadInput :=
  [overrideMotor 10, overrideMotor 4, overrideLoad 7]

open Classical in
/-- Index of the first element of a list satisfying a predicate; the list
    length when none does. -/
noncomputable def firstIdx (p : String → Prop) : List String → ℕ
  | [] => 0
  | s :: rest => if p s then 0 else firstIdx p rest + 1

open Classical in
/-- Position of a size name in the ordered candidate list (the "MAX_EXCEEDED"
    sentinel, not being a size, gets the after-the-end position). -/
noncomputable def sizeRank (name : String) : ℕ :=
  firstIdx (fun s => s = name) NECLogic.selectionSizes

namespace NECLogic

/-- The three acceptance checks of the spec, for one candidate size:
    present in the table, terminal 75C ampacity ≥ `i_req`, derated ampacity
    ≥ the actual current `i_actual`, and voltage drop at `i_actual` ≤ 3%. -/
def passChecks (load : LoadInput) (params : InstallationParams) (s : String) : Prop :=
  inAmpacityTable s = true ∧
  calculate_design_current load ≤ (ampD s 75 : ℝ) ∧
  actual_load load ≤ deratedAmps params s ∧
  calculate_voltage_drop (actual_load load) s params load.voltage load.phases
    load.power_factor ≤ 3

open Classical in
/-- First size of the ordered candidate list passing all three checks. -/
noncomputable def firstPassing (load : LoadInput) (params : InstallationParams) :
    Option String :=
  selectionSizes.find? (fun s => decide (passChecks load params s))

open Classical in
/-- The size-search loop returns exactly the first passing size of its list,
    reporting `min(terminal 75C ampacity, derated ampacity)` and the voltage
    drop there, and the `("MAX_EXCEEDED", 0, 0)` sentinel state when no size
    passes. -/
lemma selectLoop_eq (load : LoadInput) (params : InstallationParams) :
    ∀ l : List String,
      selectLoop load params l =
        ((l.find? (fun s => decide (passChecks load params s))).map
          (fun s =>
            (s, min ((ampD s 75 : ℕ) : ℝ) (deratedAmps params s),
              calculate_voltage_drop (actual_load load) s params load.voltage
                load.phases load.power_factor))).getD ("MAX_EXCEEDED", 0, 0) := by
  intro l
  induction l with
  | nil => simp [selectLoop]
  | cons s rest ih =>
    by_cases h1 : inAmpacityTable s = true
    · have h1f : ¬ (inAmpacityTable s = false) := by simp [h1]
      by_cases h2 : (ampD s 75 : ℝ) < calculate_design_current load
      · have hnp : ¬ passChecks load params s := by
          intro hp
          exact absurd hp.2.1 (not_le.mpr h2)
        rw [List.find?_cons_of_neg _ (by simpa using hnp), ← ih]
        simp only [selectLoop]
        rw [if_neg h1f, if_pos h2]
      · by_cases h3 : deratedAmps params s < actual_load load
        · have hnp : ¬ passChecks load params s := by
            intro hp
            exact absurd hp.2.2.1 (not_le.mpr h3)
          rw [List.find?_cons_of_neg _ (by simpa using hnp), ← ih]
          simp only [selectLoop]
          rw [if_neg h1f, if_neg h2, if_pos h3]
        · by_cases h4 : calculate_voltage_drop (actual_load load) s params
              load.voltage load.phases load.power_factor ≤ 3
          · have hp : passChecks load params s :=
              ⟨h1, not_lt.mp h2, not_lt.mp h3, h4⟩
            rw [List.find?_cons_of_pos _ (by simpa using hp)]
            simp only [selectLoop]
            rw [if_neg h1f, if_neg h2, if_neg h3, if_pos h4]
            rfl
          · have hnp : ¬ passChecks load params s := by
              intro hp
              exact absurd hp.2.2.2 h4
            rw [List.find?_cons_of_neg _ (by simpa using hnp), ← ih]
            simp only [selectLoop]
            rw [if_neg h1f, if_neg h2, if_neg h3, if_neg h4]
    · have h1f : inAmpacityTable s = false := by simpa using h1
      have hnp : ¬ passChecks load params s := fun hp => h1 hp.1
      rw [List.find?_cons_of_neg _ (by simpa using hnp), ← ih]
      simp only [selectLoop]
      rw [if_pos h1f]

end NECLogic

/-! ## Claim theorems -/

open NECLogic

/-- C1: `select_conductor_and_breaker` walks the fixed size list in
    ascending order and returns the first size passing all three checks —
    terminal 75C ampacity ≥ `i_req`, insulation-rated ampacity times the
    combined derating factor ≥ `i_actual` (`i_req / 1.25` for a continuous
    load, else `i_req`), and voltage drop at `i_actual` ≤ 3.0% — reporting
    ampacity `min(terminal 75C ampacity, derated ampacity)` and the voltage
    drop of that size; when no size passes, the size is the "MAX_EXCEEDED"
    sentinel. -/
theorem c1_select_first_passing (load : LoadInput) (params : InstallationParams) :
    (select_conductor_and_breaker load params).size =
      (firstPassing load params).getD "MAX_EXCEEDED" ∧
    (select_conductor_and_breaker load params).ampacity =
      ((firstPassing load params).map
        (fun s => min ((ampD s 75 : ℕ) : ℝ) (deratedAmps params s))).getD 0 ∧
    (select_conductor_and_breaker load params).voltage_drop_percent =
      ((firstPassing load params).map
        (fun s => calculate_voltage_drop (actual_load load) s params load.voltage
          load.phases load.power_factor)).getD 0 := by
  classical
  have h := selectLoop_eq load params selectionSizes
  rw [show selectionSizes.find? (fun s => decide (passChecks load params s)) =
      firstPassing load params from rfl] at h
  cases hf : firstPassing load params with
  | none =>
    rw [hf] at h
    simp [select_conductor_and_breaker, h]
  | some s =>
    rw [hf] at h
    simp [select_conductor_and_breaker, h]

/-- C6: the design current uses the override as base current when present
    and otherwise `P/(V·pf)` (single phase) or `P/(√3·V·pf)` (three phase),
    multiplied by 1.25 exactly when the load is continuous — the motor flag
    plays no role; for the 5000 W / 220 V / pf 0.9 single-phase continuous
    example the base current is ≈ 25.25 A and the design current ≈ 31.57 A. -/
theorem c6_design_current :
    (∀ load : LoadInput,
      calculate_design_current load =
        (match load.override_amps with
          | some a => a
          | none =>
            if load.phases = 1 then load.power_watts / (load.voltage * load.power_factor)
            else load.power_watts / (Real.sqrt 3 * load.voltage * load.power_factor)) *
        (if load.is_continuous then 1.25 else 1)) ∧
    |calculate_design_current exLoad5000base - 25.25| < 0.005 ∧
    |calculate_design_current exLoad5000 - 31.57| < 0.005 := by
  refine ⟨fun load => rfl, ?_, ?_⟩
  · have h : calculate_design_current exLoad5000base = 5000 / (220 * 0.9) := by
      simp [calculate_design_current, exLoad5000base, exLoad5000]
    rw [h]
    rw [abs_sub_lt_iff]
    norm_num
  · have h : calculate_design_current exLoad5000 = 5000 / (220 * 0.9) * 1.25 := by
      simp [calculate_design_current, exLoad5000]
    rw [h]
    rw [abs_sub_lt_iff]
    norm_num

/-- C9: `calculate_voltage_drop` computes exactly the spec's formula —
    `k·I·(R·cosθ + X·sinθ)·length_ft/1000 / voltage · 100` with
    `θ = arccos pf`, `k = 1.732` for three-phase and `2.0` otherwise, R and X
    looked up for the raceway material with aluminum mapped to the
    non-magnetic table — and returns the large 999 sentinel (never zero) for
    every size absent from the impedance table. -/
theorem c9_voltage_drop (current : ℝ) (size_awg : String)
    (params : InstallationParams) (voltage : ℝ) (phases : ℕ) (pf : ℝ) :
    calculate_voltage_drop current size_awg params voltage phases pf =
      drop_percent_spec current size_awg params voltage phases pf ∧
    (TABLE_9_IMPEDANCE.find? (fun e => decide (e.1 = size_awg)) = none →
      calculate_voltage_drop current size_awg params voltage phases pf = 999 ∧
      calculate_voltage_drop current size_awg params voltage phases pf ≠ 0) := by
  constructor
  · unfold calculate_voltage_drop drop_percent_spec
    cases TABLE_9_IMPEDANCE.find? (fun e => decide (e.1 = size_awg)) with
    | none => rfl
    | some e => ring
  · intro hnone
    unfold calculate_voltage_drop
    rw [hnone]
    norm_num

/-! ### Generic list helpers -/

/-- On an ascending list, `find?` returns a least satisfying element. -/
lemma find?_least_of_sorted (l : List ℕ) (p : ℕ → Bool)
    (hs : List.Sorted (fun a b => a ≤ b) l) (a : ℕ) (h : l.find? p = some a) :
    ∀ b ∈ l, p b = true → a ≤ b := by
  induction l with
  | nil => simp at h
  | cons x r ih =>
    rw [List.sorted_cons] at hs
    by_cases hx : p x = true
    · rw [List.find?_cons_of_pos _ hx] at h
      injection h with h
      subst h
      intro b hb _
      rcases List.mem_cons.mp hb with rfl | hbr
      · exact le_rfl
      · exact hs.1 b hbr
    · rw [List.find?_cons_of_neg _ hx] at h
      intro b hb hpb
      rcases List.mem_cons.mp hb with rfl | hbr
      · exact absurd hpb hx
      · exact ih hs.2 h b hbr hpb

/-- On a descending list, `find?` returns a greatest satisfying element. -/
lemma find?_greatest_of_sorted (l : List ℕ) (p : ℕ → Bool)
    (hs : List.Sorted (fun a b => b ≤ a) l) (a : ℕ) (h : l.find? p = some a) :
    ∀ b ∈ l, p b = true → b ≤ a := by
  induction l with
  | nil => simp at h
  | cons x r ih =>
    rw [List.sorted_cons] at hs
    by_cases hx : p x = true
    · rw [List.find?_cons_of_pos _ hx] at h
      injection h with h
      subst h
      intro b hb _
      rcases List.mem_cons.mp hb with rfl | hbr
      · exact le_rfl
      · exact hs.1 b hbr
    · rw [List.find?_cons_of_neg _ hx] at h
      intro b hb hpb
      rcases List.mem_cons.mp hb with rfl | hbr
      · exact absurd hpb hx
      · exact ih hs.2 h b hbr hpb

/-- A list containing a satisfying element has a `find?` hit. -/
lemma find?_isSome_of_mem {α : Type} (l : List α) (p : α → Bool) (b : α)
    (hb : b ∈ l) (hpb : p b = true) : ∃ a, l.find? p = some a := by
  cases hf : l.find? p with
  | some a => exact ⟨a, rfl⟩
  | none => exact absurd hpb (List.find?_eq_none.mp hf b hb)

lemma breaker_ratings_sorted : List.Sorted (fun a b => a ≤ b) BREAKER_RATINGS := by
  decide

/-! ### C7: non-motor breaker selection in NECLogic -/

/-- C7 counterexample: the claim "the selected breaker rating is the smallest
    standard rating ≥ i_req ... for every value of i_req" fails for a
    1250 A load: no standard rating reaches 1250, and the code returns the
    untouched initial value 15 A, which is not ≥ i_req. -/
theorem c7_breaker_counterexample :
    (overrideLoad 1250).is_motor = false ∧
    calculate_design_current (overrideLoad 1250) = 1250 ∧
    (select_conductor_and_breaker (overrideLoad 1250) exParams).breaker_rating = 15 ∧
    ¬ (calculate_design_current (overrideLoad 1250) ≤
        ((select_conductor_and_breaker (overrideLoad 1250) exParams).breaker_rating : ℝ)) := by
  classical
  have hd : calculate_design_current (overrideLoad 1250) = 1250 := by
    simp [calculate_design_current, overrideLoad]
  have hnone : BREAKER_RATINGS.find?
      (fun (b : ℕ) => decide (calculate_design_current (overrideLoad 1250) ≤ (b : ℝ))) = none := by
    rw [List.find?_eq_none]
    intro b hb
    simp only [decide_eq_true_eq, hd]
    fin_cases hb <;> norm_num
  have hbr : (select_conductor_and_breaker (overrideLoad 1250) exParams).breaker_rating = 15 := by
    simp [select_conductor_and_breaker, breakerPick, hnone]
  refine ⟨rfl, hd, hbr, ?_⟩
  rw [hbr, hd]
  norm_num

/-- C7 (amended): for every non-motor load whose design current does not
    exceed the largest standard rating (1200 A), the selected breaker rating
    is the smallest standard rating ≥ `i_req`; above 1200 A the code instead
    leaves the loop's initial 15 A value (see the counterexample). -/
theorem c7_breaker_amended (load : LoadInput) (params : InstallationParams)
    (hm : load.is_motor = false)
    (hle : calculate_design_current load ≤ 1200) :
    (select_conductor_and_breaker load params).breaker_rating ∈ BREAKER_RATINGS ∧
    calculate_design_current load ≤
      ((select_conductor_and_breaker load params).breaker_rating : ℝ) ∧
    ∀ b ∈ BREAKER_RATINGS, calculate_design_current load ≤ (b : ℝ) →
      (select_conductor_and_breaker load params).breaker_rating ≤ b := by
  classical
  have hmem : (1200 : ℕ) ∈ BREAKER_RATINGS := by decide
  have hp1200 : (fun (b : ℕ) => decide (calculate_design_current load ≤ (b : ℝ))) 1200 = true := by
    simp only [decide_eq_true_eq]
    exact_mod_cast hle
  obtain ⟨a, ha⟩ := find?_isSome_of_mem BREAKER_RATINGS
    (fun (b : ℕ) => decide (calculate_design_current load ≤ (b : ℝ))) 1200 hmem hp1200
  have hbr : (select_conductor_and_breaker load params).breaker_rating = a := by
    simp [select_conductor_and_breaker, breakerPick, ha]
  rw [hbr]
  refine ⟨List.mem_of_find?_eq_some ha, ?_, ?_⟩
  · have := List.find?_some ha
    simpa using this
  · intro b hb hpb
    exact find?_least_of_sorted BREAKER_RATINGS _ breaker_ratings_sorted a ha b hb
      (by simpa using hpb)

/-- Witness for C7 (amended) at a concrete 100 A non-motor load: the chosen
    breaker is a standard rating ≥ the design current and minimal among
    those. -/
theorem c7_breaker_amended_witness :
    (overrideLoad 100).is_motor = false ∧
    calculate_design_current (overrideLoad 100) ≤ 1200 ∧
    ((select_conductor_and_breaker (overrideLoad 100) exParams).breaker_rating ∈ BREAKER_RATINGS ∧
     calculate_design_current (overrideLoad 100) ≤
       ((select_conductor_and_breaker (overrideLoad 100) exParams).breaker_rating : ℝ) ∧
     ∀ b ∈ BREAKER_RATINGS, calculate_design_current (overrideLoad 100) ≤ (b : ℝ) →
       (select_conductor_and_breaker (overrideLoad 100) exParams).breaker_rating ≤ b) := by
  have hd : calculate_design_current (overrideLoad 100) = 100 := by
    simp [calculate_design_current, overrideLoad]
  exact ⟨rfl, by rw [hd]; norm_num,
    c7_breaker_amended (overrideLoad 100) exParams rfl (by rw [hd]; norm_num)⟩

/-! ### C10: result invariants of the selector -/

/-- C10: the returned breaker rating is always drawn from the standard
    ratings list, and in the MAX_EXCEEDED (no size passed) case the result
    carries ampacity 0.0 and voltage drop 0.0 while the breaker rating is
    still the one computed from `i_req` — selection failure does not zero
    the breaker field. -/
theorem c10_result_invariants (load : LoadInput) (params : InstallationParams) :
    (select_conductor_and_breaker load params).breaker_rating ∈ BREAKER_RATINGS ∧
    ((select_conductor_and_breaker load params).size = "MAX_EXCEEDED" →
      (select_conductor_and_breaker load params).ampacity = 0 ∧
      (select_conductor_and_breaker load params).voltage_drop_percent = 0 ∧
      (select_conductor_and_breaker load params).breaker_rating =
        breakerPick (calculate_design_current load)) := by
  classical
  constructor
  · cases hf : BREAKER_RATINGS.find?
        (fun (b : ℕ) => decide (calculate_design_current load ≤ (b : ℝ))) with
    | some b =>
      have : (select_conductor_and_breaker load params).breaker_rating = b := by
        simp [select_conductor_and_breaker, breakerPick, hf]
      rw [this]
      exact List.mem_of_find?_eq_some hf
    | none =>
      have : (select_conductor_and_breaker load params).breaker_rating = 15 := by
        simp [select_conductor_and_breaker, breakerPick, hf]
      rw [this]
      decide
  · intro hmax
    have h := selectLoop_eq load params selectionSizes
    cases hf : selectionSizes.find? (fun s => decide (passChecks load params s)) with
    | some s =>
      exfalso
      rw [hf] at h
      have hs : (select_conductor_and_breaker load params).size = s := by
        simp [select_conductor_and_breaker, h]
      rw [hmax] at hs
      have hmem := List.mem_of_find?_eq_some hf
      rw [← hs] at hmem
      revert hmem
      decide
    | none =>
      rw [hf] at h
      refine ⟨?_, ?_, rfl⟩ <;> simp [select_conductor_and_breaker, h]

/-- Witness for C10: a 10000 A load exceeds every conductor size, producing
    the MAX_EXCEEDED sentinel with zero ampacity and voltage drop, and a
    breaker rating still drawn from the standard list. -/
theorem c10_result_invariants_witness :
    (select_conductor_and_breaker (overrideLoad 10000) exParams).size = "MAX_EXCEEDED" ∧
    (select_conductor_and_breaker (overrideLoad 10000) exParams).ampacity = 0 ∧
    (select_conductor_and_breaker (overrideLoad 10000) exParams).voltage_drop_percent = 0 ∧
    (select_conductor_and_breaker (overrideLoad 10000) exParams).breaker_rating ∈
      BREAKER_RATINGS := by
  classical
  have hd : calculate_design_current (overrideLoad 10000) = 10000 := by
    simp [calculate_design_current, overrideLoad]
  have hnone : selectionSizes.find?
      (fun s => decide (passChecks (overrideLoad 10000) exParams s)) = none := by
    rw [List.find?_eq_none]
    intro s hs
    simp only [decide_eq_true_eq]
    intro hp
    have h75 : (ampD s 75 : ℕ) ≤ 665 := by fin_cases hs <;> decide
    have hle := hp.2.1
    rw [hd] at hle
    have : (10000 : ℝ) ≤ 665 := le_trans hle (by exact_mod_cast h75)
    norm_num at this
  have h := selectLoop_eq (overrideLoad 10000) exParams selectionSizes
  rw [hnone] at h
  have hsize : (select_conductor_and_breaker (overrideLoad 10000) exParams).size =
      "MAX_EXCEEDED" := by
    simp [select_conductor_and_breaker, h]
  have hc := c10_result_invariants (overrideLoad 10000) exParams
  exact ⟨hsize, (hc.2 hsize).1, (hc.2 hsize).2.1, hc.1⟩

/-! ### C2: feeder aggregation total -/

/-- Accumulating `acc + f x` over a list is the initial value plus the sum. -/
lemma foldl_add_eq (f : LoadInput → ℝ) :
    ∀ (l : List LoadInput) (a : ℝ),
      l.foldl (fun acc x => acc + f x) a = a + (l.map f).sum := by
  intro l
  induction l with
  | nil => intro a; simp
  | cons x r ih =>
    intro a
    simp only [List.foldl_cons, List.map_cons, List.sum_cons]
    rw [ih]
    ring

/-- The running-maximum fold never drops below its accumulator. -/
lemma maxFold_acc_le :
    ∀ (l : List LoadInput) (a : ℝ),
      a ≤ l.foldl (fun acc m => if acc < unit_current m then unit_current m else acc) a := by
  intro l
  induction l with
  | nil => intro a; simp
  | cons x r ih =>
    intro a
    simp only [List.foldl_cons]
    refine le_trans ?_ (ih _)
    by_cases h : a < unit_current x
    · rw [if_pos h]; exact le_of_lt h
    · rw [if_neg h]

/-- The running-maximum fold dominates every element of the list. -/
lemma maxFold_mem_le :
    ∀ (l : List LoadInput) (a : ℝ) (m : LoadInput), m ∈ l →
      unit_current m ≤
        l.foldl (fun acc x => if acc < unit_current x then unit_current x else acc) a := by
  intro l
  induction l with
  | nil => intro a m hm; simp at hm
  | cons x r ih =>
    intro a m hm
    simp only [List.foldl_cons]
    rcases List.mem_cons.mp hm with rfl | hmr
    · refine le_trans ?_ (maxFold_acc_le r _)
      by_cases h : a < unit_current m
      · rw [if_pos h]
      · rw [if_neg h]; exact le_of_not_lt h
    · exact ih _ m hmr

/-- The running-maximum fold returns its accumulator or some element. -/
lemma maxFold_attain :
    ∀ (l : List LoadInput) (a : ℝ),
      l.foldl (fun acc x => if acc < unit_current x then unit_current x else acc) a = a ∨
      ∃ m ∈ l,
        l.foldl (fun acc x => if acc < unit_current x then unit_current x else acc) a =
          unit_current m := by
  intro l
  induction l with
  | nil => intro a; left; rfl
  | cons x r ih =>
    intro a
    simp only [List.foldl_cons]
    by_cases h : a < unit_current x
    · rw [if_pos h]
      rcases ih (unit_current x) with he | ⟨m, hm, he⟩
      · exact Or.inr ⟨x, List.mem_cons_self x r, he⟩
      · exact Or.inr ⟨m, List.mem_cons_of_mem x hm, he⟩
    · rw [if_neg h]
      rcases ih a with he | ⟨m, hm, he⟩
      · exact Or.inl he
      · exact Or.inr ⟨m, List.mem_cons_of_mem x hm, he⟩

/-- The running maximum over motors, started at 0, is nonnegative. -/
lemma maxMotorUnit_nonneg (motors : List LoadInput) : 0 ≤ maxMotorUnit motors :=
  maxFold_acc_le motors 0

/-- C2: the aggregated feeder total is the sum over motors of unit current ×
    quantity, plus 25% of the largest per-unit motor current (`maxMotorUnit`,
    which the other two conjuncts identify as the largest unit current, not
    scaled by quantity), plus for each other load unit current × quantity ×
    1.25 when continuous (× 1 otherwise); the subtotal is multiplied by the
    demand factor exactly when it is < 1.0. -/
theorem c2_feeder_total (loads : List LoadInput) (df : ℝ)
    (hnn : ∀ l ∈ loads, 0 ≤ unit_current l) :
    let motors := loads.filter (fun l => l.is_motor)
    let others := loads.filter (fun l => !l.is_motor)
    let M := maxMotorUnit motors
    let subtotal :=
      (motors.map (fun m => unit_current m * (m.quantity : ℝ))).sum + 0.25 * M +
        (others.map (fun l =>
          unit_current l * (l.quantity : ℝ) * (if l.is_continuous then 1.25 else 1))).sum
    feederTotal loads df = (if df < 1 then subtotal * df else subtotal) ∧
    (∀ m ∈ motors, unit_current m ≤ M) ∧
    (motors ≠ [] → M ∈ motors.map unit_current) := by
  intro motors others M subtotal
  have hMnn : 0 ≤ M := maxMotorUnit_nonneg motors
  have hsum : motorSum motors + (if 0 < M then M * 0.25 else 0) + otherSum others =
      subtotal := by
    have hm : motorSum motors =
        (motors.map (fun m => unit_current m * (m.quantity : ℝ))).sum := by
      unfold motorSum
      rw [foldl_add_eq (fun m => unit_current m * (m.quantity : ℝ)) motors 0]
      ring
    have ho : otherSum others =
        (others.map (fun l =>
          unit_current l * (l.quantity : ℝ) * (if l.is_continuous then 1.25 else 1))).sum := by
      unfold otherSum
      rw [foldl_add_eq (fun l =>
        if l.is_continuous then unit_current l * (l.quantity : ℝ) * 1.25
        else unit_current l * (l.quantity : ℝ)) others 0]
      rw [zero_add]
      congr 1
      apply List.map_congr_left
      intro l _
      by_cases hc : l.is_continuous
      · simp [hc]
      · simp [hc]
    have hsur : (if 0 < M then M * 0.25 else 0) = 0.25 * M := by
      by_cases h : 0 < M
      · rw [if_pos h]; ring
      · rw [if_neg h]
        have : M = 0 := le_antisymm (le_of_not_lt h) hMnn
        rw [this]; ring
    rw [hm, ho, hsur]
  refine ⟨?_, ?_, ?_⟩
  · have hrfl : feederTotal loads df =
        if df < 1 then
          (motorSum motors + (if 0 < M then M * 0.25 else 0) + otherSum others) * df
        else motorSum motors + (if 0 < M then M * 0.25 else 0) + otherSum others := rfl
    rw [hrfl, hsum]
  · intro m hm
    exact maxFold_mem_le motors 0 m hm
  · intro hne
    rcases maxFold_attain motors 0 with he | ⟨m, hm, he⟩
    · obtain ⟨x, hx⟩ := List.exists_mem_of_ne_nil motors hne
      have hxl : x ∈ loads.filter (fun l => l.is_motor) := hx
      have hx0 : 0 ≤ unit_current x := hnn x (List.mem_of_mem_filter hxl)
      have hxM : unit_current x ≤ M := maxFold_mem_le motors 0 x hx
      have hM0 : M = 0 := he
      have hxe : unit_current x = M := le_antisymm hxM (by rw [hM0]; exact hx0)
      exact List.mem_map.mpr ⟨x, hx, hxe⟩
    · exact List.mem_map.mpr ⟨m, hm, he.symm⟩

/-- Witness for C2 on the concrete load schedule `exFeederLoads`. -/
theorem c2_feeder_total_witness :
    (∀ l ∈ exFeederLoads, 0 ≤ unit_current l) ∧
    (let motors := exFeederLoads.filter (fun l => l.is_motor)
     let others := exFeederLoads.filter (fun l => !l.is_motor)
     let M := maxMotorUnit motors
     let subtotal :=
       (motors.map (fun m => unit_current m * (m.quantity : ℝ))).sum + 0.25 * M +
         (others.map (fun l =>
           unit_current l * (l.quantity : ℝ) * (if l.is_continuous then 1.25 else 1))).sum
     feederTotal exFeederLoads 0.7 = (if (0.7 : ℝ) < 1 then subtotal * 0.7 else subtotal) ∧
     (∀ m ∈ motors, unit_current m ≤ M) ∧
     (motors ≠ [] → M ∈ motors.map unit_current)) := by
  have hnn : ∀ l ∈ exFeederLoads, 0 ≤ unit_current l := by
    intro l hl
    fin_cases hl <;> simp [unit_current, overrideMotor, overrideLoad]
  exact ⟨hnn, c2_feeder_total exFeederLoads 0.7 hnn⟩

/-! ### C4: ambient temperature correction -/

/-- The ambient bands of Table 310.15(B)(1) are pairwise disjoint: a given
    ambient lies in at most one band. -/
lemma temp_band_unique (t : ℚ) (b1 b2 : (ℚ × ℚ) × (ℚ × ℚ × ℚ))
    (h1 : b1 ∈ TEMP_CORRECTION_FACTORS) (h2 : b2 ∈ TEMP_CORRECTION_FACTORS)
    (hb1 : b1.1.1 ≤ t ∧ t ≤ b1.1.2) (hb2 : b2.1.1 ≤ t ∧ t ≤ b2.1.2) : b1 = b2 := by
  obtain ⟨h1a, h1b⟩ := hb1
  obtain ⟨h2a, h2b⟩ := hb2
  fin_cases h1 <;> fin_cases h2 <;>
    first
      | rfl
      | (exfalso
         simp only at h1a h1b h2a h2b
         linarith)

/-- In-band evaluation of `get_temp_correction`: the factor of the (unique)
    band containing the ambient. -/
lemma tc_band (t : ℚ) (r : ℕ) (b : (ℚ × ℚ) × (ℚ × ℚ × ℚ))
    (hb : b ∈ TEMP_CORRECTION_FACTORS) (hlo : b.1.1 ≤ t) (hhi : t ≤ b.1.2) :
    get_temp_correction t r = ratingSelect b.2 r := by
  have hpb : (fun (x : (ℚ × ℚ) × (ℚ × ℚ × ℚ)) =>
      decide (x.1.1 ≤ t) && decide (t ≤ x.1.2)) b = true := by
    simp [hlo, hhi]
  obtain ⟨a, ha⟩ := find?_isSome_of_mem TEMP_CORRECTION_FACTORS
    (fun x => decide (x.1.1 ≤ t) && decide (t ≤ x.1.2)) b hb hpb
  have hpa := List.find?_some ha
  simp only [Bool.and_eq_true, decide_eq_true_eq] at hpa
  have hae : a = b :=
    temp_band_unique t a b (List.mem_of_find?_eq_some ha) hb hpa ⟨hlo, hhi⟩
  unfold get_temp_correction
  rw [ha, hae]

/-- Ambient strictly below the lowest band floor: the `temp_c <= 20`
    fallback yields 1. -/
lemma tc_low (t : ℚ) (r : ℕ) (ht : t < 0) : get_temp_correction t r = 1 := by
  have hnone : TEMP_CORRECTION_FACTORS.find?
      (fun x => decide (x.1.1 ≤ t) && decide (t ≤ x.1.2)) = none := by
    rw [List.find?_eq_none]
    intro b hb
    simp only [Bool.and_eq_true, decide_eq_true_eq, not_and]
    intro hlo
    exfalso
    fin_cases hb <;> simp only at hlo <;> linarith
  unfold get_temp_correction
  rw [hnone]
  rw [if_pos (by linarith : t ≤ 20)]

/-- Ambient at 71 or above: the 0 clamp. -/
lemma tc_high (t : ℚ) (r : ℕ) (ht : 71 ≤ t) : get_temp_correction t r = 0 := by
  have hnone : TEMP_CORRECTION_FACTORS.find?
      (fun x => decide (x.1.1 ≤ t) && decide (t ≤ x.1.2)) = none := by
    rw [List.find?_eq_none]
    intro b hb
    simp only [Bool.and_eq_true, decide_eq_true_eq, not_and]
    intro _ hhi
    fin_cases hb <;> simp only at hhi <;> linarith
  unfold get_temp_correction
  rw [hnone]
  rw [if_neg (by linarith : ¬ t ≤ 20), if_pos ht]

/-- Ambient above 20 C, below 71 C, and in none of the bands: the final
    `return 1.0` fallback. -/
lemma tc_gap (t : ℚ) (r : ℕ) (ht1 : 20 < t) (ht2 : t < 71)
    (hnb : ∀ b ∈ TEMP_CORRECTION_FACTORS, ¬ (b.1.1 ≤ t ∧ t ≤ b.1.2)) :
    get_temp_correction t r = 1 := by
  have hnone : TEMP_CORRECTION_FACTORS.find?
      (fun x => decide (x.1.1 ≤ t) && decide (t ≤ x.1.2)) = none := by
    rw [List.find?_eq_none]
    intro b hb
    simp only [Bool.and_eq_true, decide_eq_true_eq]
    exact fun h => hnb b hb ⟨h.1, h.2⟩
  unfold get_temp_correction
  rw [hnone]
  rw [if_neg (by linarith : ¬ t ≤ 20), if_neg (by linarith : ¬ (71 : ℚ) ≤ t)]

/-- C4 counterexample: at ambient 70.5 C (strictly above the highest band,
    which ends at 70) the correction factor is the optimistic fallback 1.0,
    not the 0.0 clamp the claim requires; 0.0 only starts at 71 C. -/
theorem c4_gap_counterexample :
    (70 : ℚ) < 141 / 2 ∧ get_temp_correction (141 / 2) 75 = 1 ∧ (1 : ℚ) ≠ 0 := by
  refine ⟨by norm_num, ?_, by norm_num⟩
  have hnone : TEMP_CORRECTION_FACTORS.find?
      (fun x => decide (x.1.1 ≤ (141 / 2 : ℚ)) && decide ((141 / 2 : ℚ) ≤ x.1.2)) =
      none := by
    rw [List.find?_eq_none]
    intro b hb
    simp only [Bool.and_eq_true, decide_eq_true_eq, not_and]
    fin_cases hb <;> norm_num
  unfold get_temp_correction
  rw [hnone]
  norm_num

/-- C4 (amended): the factor is the tabulated band factor whenever the
    ambient lies in a band; ambient strictly below the lowest band floor
    (0 C) clamps to 1.0; the 0.0 clamp applies only from 71 C upward; in the
    uncovered gap strictly between 70 C and 71 C (and likewise in the other
    inter-band gaps above 20 C) the function falls back to the optimistic
    1.0 instead of a neighbouring tabulated value. -/
theorem c4_temp_correction_amended (t : ℚ) (r : ℕ) :
    (∀ b ∈ TEMP_CORRECTION_FACTORS, b.1.1 ≤ t → t ≤ b.1.2 →
      get_temp_correction t r = ratingSelect b.2 r) ∧
    (t < 0 → get_temp_correction t r = 1) ∧
    (71 ≤ t → get_temp_correction t r = 0) ∧
    (70 < t → t < 71 → get_temp_correction t r = 1) := by
  refine ⟨?_, ?_, ?_, ?_⟩
  · intro b hb hlo hhi
    have hpb : (fun (x : (ℚ × ℚ) × (ℚ × ℚ × ℚ)) =>
        decide (x.1.1 ≤ t) && decide (t ≤ x.1.2)) b = true := by
      simp [hlo, hhi]
    obtain ⟨a, ha⟩ := find?_isSome_of_mem TEMP_CORRECTION_FACTORS
      (fun x => decide (x.1.1 ≤ t) && decide (t ≤ x.1.2)) b hb hpb
    have hpa := List.find?_some ha
    simp only [Bool.and_eq_true, decide_eq_true_eq] at hpa
    have hae : a = b :=
      temp_band_unique t a b (List.mem_of_find?_eq_some ha) hb hpa ⟨hlo, hhi⟩
    unfold get_temp_correction
    rw [ha, hae]
  · intro ht
    have hnone : TEMP_CORRECTION_FACTORS.find?
        (fun x => decide (x.1.1 ≤ t) && decide (t ≤ x.1.2)) = none := by
      rw [List.find?_eq_none]
      intro b hb
      simp only [Bool.and_eq_true, decide_eq_true_eq, not_and]
      intro hlo
      exfalso
      fin_cases hb <;> simp only at hlo <;> linarith
    unfold get_temp_correction
    rw [hnone]
    rw [if_pos (by linarith : t ≤ 20)]
  · intro ht
    have hnone : TEMP_CORRECTION_FACTORS.find?
        (fun x => decide (x.1.1 ≤ t) && decide (t ≤ x.1.2)) = none := by
      rw [List.find?_eq_none]
      intro b hb
      simp only [Bool.and_eq_true, decide_eq_true_eq, not_and]
      intro _ hhi
      fin_cases hb <;> simp only at hhi <;> linarith
    unfold get_temp_correction
    rw [hnone]
    rw [if_neg (by linarith : ¬ t ≤ 20), if_pos ht]
  · intro ht1 ht2
    have hnone : TEMP_CORRECTION_FACTORS.find?
        (fun x => decide (x.1.1 ≤ t) && decide (t ≤ x.1.2)) = none := by
      rw [List.find?_eq_none]
      intro b hb
      simp only [Bool.and_eq_true, decide_eq_true_eq, not_and]
      intro _ hhi
      fin_cases hb <;> simp only at hhi <;> linarith
    unfold get_temp_correction
    rw [hnone]
    rw [if_neg (by linarith : ¬ t ≤ 20), if_neg (by linarith : ¬ (71 : ℚ) ≤ t)]

/-- Witness for C4 (amended): in-band ambient 35 C at the 75 C rating gives
    the tabulated 0.94, and ambient -5 C clamps to 1.0. -/
theorem c4_temp_correction_amended_witness :
    (((31 : ℚ), (35 : ℚ)), ((0.91 : ℚ), (0.94 : ℚ), (0.96 : ℚ))) ∈ TEMP_CORRECTION_FACTORS ∧
    get_temp_correction 35 75 = 0.94 ∧
    (-5 : ℚ) < 0 ∧ get_temp_correction (-5) 75 = 1 := by
  have hb : (((31 : ℚ), (35 : ℚ)), ((0.91 : ℚ), (0.94 : ℚ), (0.96 : ℚ))) ∈
      TEMP_CORRECTION_FACTORS := by
    unfold TEMP_CORRECTION_FACTORS
    simp
  refine ⟨hb, ?_, by norm_num, (c4_temp_correction_amended (-5) 75).2.1 (by norm_num)⟩
  have h := (c4_temp_correction_amended 35 75).1 _ hb (by norm_num) (by norm_num)
  rw [h]
  norm_num [ratingSelect]

/-! ### C5: monotonicity of the selection in the derating inputs -/

/-- Componentwise-ordered band factors give ordered `ratingSelect` values
    (the off-table default 1 is shared). -/
lemma ratingSelect_le (fs gs : ℚ × ℚ × ℚ) (h1 : gs.1 ≤ fs.1) (h2 : gs.2.1 ≤ fs.2.1)
    (h3 : gs.2.2 ≤ fs.2.2) (r : ℕ) : ratingSelect gs r ≤ ratingSelect fs r := by
  unfold ratingSelect
  split_ifs <;> first | exact h1 | exact h2 | exact h3 | exact le_refl 1

/-- The temperature-correction factor is never negative. -/
lemma tc_nonneg (t : ℚ) (r : ℕ) : 0 ≤ get_temp_correction t r := by
  unfold get_temp_correction
  cases hf : TEMP_CORRECTION_FACTORS.find?
      (fun x => decide (x.1.1 ≤ t) && decide (t ≤ x.1.2)) with
  | none => split_ifs <;> norm_num
  | some b =>
    have hb := List.mem_of_find?_eq_some hf
    fin_cases hb <;> (unfold ratingSelect; split_ifs <;> norm_num)

/-- One-degree step: on whole-degree ambients the correction factor never
    increases from n to n+1 degrees. -/
lemma tc_nat_step (r : ℕ) (n : ℕ) :
    get_temp_correction ((n : ℚ) + 1) r ≤ get_temp_correction (n : ℚ) r := by
  have hn0 : (0 : ℚ) ≤ (n : ℚ) := by positivity
  by_cases h71 : 71 ≤ n
  · have hq : (71 : ℚ) ≤ (n : ℚ) := by exact_mod_cast h71
    rw [tc_high ((n : ℚ) + 1) r (by linarith), tc_high (n : ℚ) r hq]
  · have h70 : n ≤ 70 := by omega
    by_cases hc1 : n ≤ 9
    · have ha : (n : ℚ) ≤ 9 := by exact_mod_cast hc1
      rw [tc_band ((n : ℚ) + 1) r ((0, 10), (1.29, 1.20, 1.15))
            (by unfold TEMP_CORRECTION_FACTORS; simp) (by linarith) (by linarith),
          tc_band (n : ℚ) r ((0, 10), (1.29, 1.20, 1.15))
            (by unfold TEMP_CORRECTION_FACTORS; simp) (by linarith) (by linarith)]
    · by_cases hc2 : n = 10
      · subst hc2
        rw [tc_band ((10 : ℕ) + 1 : ℚ) r ((11, 15), (1.22, 1.15, 1.12))
              (by unfold TEMP_CORRECTION_FACTORS; simp) (by norm_num) (by norm_num),
            tc_band ((10 : ℕ) : ℚ) r ((0, 10), (1.29, 1.20, 1.15))
              (by unfold TEMP_CORRECTION_FACTORS; simp) (by norm_num) (by norm_num)]
        exact ratingSelect_le _ _ (by norm_num) (by norm_num) (by norm_num) r
      · by_cases hc3 : n ≤ 14
        · have hlo : (11 : ℚ) ≤ (n : ℚ) := by exact_mod_cast (by omega : 11 ≤ n)
          have ha : (n : ℚ) ≤ 14 := by exact_mod_cast hc3
          rw [tc_band ((n : ℚ) + 1) r ((11, 15), (1.22, 1.15, 1.12))
                (by unfold TEMP_CORRECTION_FACTORS; simp) (by linarith) (by linarith),
              tc_band (n : ℚ) r ((11, 15), (1.22, 1.15, 1.12))
                (by unfold TEMP_CORRECTION_FACTORS; simp) (by linarith) (by linarith)]
        · by_cases hc4 : n = 15
          · subst hc4
            rw [tc_band ((15 : ℕ) + 1 : ℚ) r ((16, 20), (1.15, 1.11, 1.08))
                  (by unfold TEMP_CORRECTION_FACTORS; simp) (by norm_num) (by norm_num),
                tc_band ((15 : ℕ) : ℚ) r ((11, 15), (1.22, 1.15, 1.12))
                  (by unfold TEMP_CORRECTION_FACTORS; simp) (by norm_num) (by norm_num)]
            exact ratingSelect_le _ _ (by norm_num) (by norm_num) (by norm_num) r
          · by_cases hc5 : n ≤ 19
            · have hlo : (16 : ℚ) ≤ (n : ℚ) := by exact_mod_cast (by omega : 16 ≤ n)
              have ha : (n : ℚ) ≤ 19 := by exact_mod_cast hc5
              rw [tc_band ((n : ℚ) + 1) r ((16, 20), (1.15, 1.11, 1.08))
                    (by unfold TEMP_CORRECTION_FACTORS; simp) (by linarith) (by linarith),
                  tc_band (n : ℚ) r ((16, 20), (1.15, 1.11, 1.08))
                    (by unfold TEMP_CORRECTION_FACTORS; simp) (by linarith) (by linarith)]
            · by_cases hc6 : n = 20
              · subst hc6
                rw [tc_band ((20 : ℕ) + 1 : ℚ) r ((21, 25), (1.08, 1.05, 1.04))
                      (by unfold TEMP_CORRECTION_FACTORS; simp) (by norm_num) (by norm_num),
                    tc_band ((20 : ℕ) : ℚ) r ((16, 20), (1.15, 1.11, 1.08))
                      (by unfold TEMP_CORRECTION_FACTORS; simp) (by norm_num) (by norm_num)]
                exact ratingSelect_le _ _ (by norm_num) (by norm_num) (by norm_num) r
              · by_cases hc7 : n ≤ 24
                · have hlo : (21 : ℚ) ≤ (n : ℚ) := by exact_mod_cast (by omega : 21 ≤ n)
                  have ha : (n : ℚ) ≤ 24 := by exact_mod_cast hc7
                  rw [tc_band ((n : ℚ) + 1) r ((21, 25), (1.08, 1.05, 1.04))
                        (by unfold TEMP_CORRECTION_FACTORS; simp) (by linarith) (by linarith),
                      tc_band (n : ℚ) r ((21, 25), (1.08, 1.05, 1.04))
                        (by unfold TEMP_CORRECTION_FACTORS; simp) (by linarith) (by linarith)]
                · by_cases hc8 : n = 25
                  · subst hc8
                    rw [tc_band ((25 : ℕ) + 1 : ℚ) r ((26, 30), (1.00, 1.00, 1.00))
                          (by unfold TEMP_CORRECTION_FACTORS; simp) (by norm_num) (by norm_num),
                        tc_band ((25 : ℕ) : ℚ) r ((21, 25), (1.08, 1.05, 1.04))
                          (by unfold TEMP_CORRECTION_FACTORS; simp) (by norm_num) (by norm_num)]
                    exact ratingSelect_le _ _ (by norm_num) (by norm_num) (by norm_num) r
                  · by_cases hc9 : n ≤ 29
                    · have hlo : (26 : ℚ) ≤ (n : ℚ) := by exact_mod_cast (by omega : 26 ≤ n)
                      have ha : (n : ℚ) ≤ 29 := by exact_mod_cast hc9
                      rw [tc_band ((n : ℚ) + 1) r ((26, 30), (1.00, 1.00, 1.00))
                            (by unfold TEMP_CORRECTION_FACTORS; simp) (by linarith) (by linarith),
                          tc_band (n : ℚ) r ((26, 30), (1.00, 1.00, 1.00))
                            (by unfold TEMP_CORRECTION_FACTORS; simp) (by linarith) (by linarith)]
                    · by_cases hc10 : n = 30
                      · subst hc10
                        rw [tc_band ((30 : ℕ) + 1 : ℚ) r ((31, 35), (0.91, 0.94, 0.96))
                              (by unfold TEMP_CORRECTION_FACTORS; simp) (by norm_num) (by norm_num),
                            tc_band ((30 : ℕ) : ℚ) r ((26, 30), (1.00, 1.00, 1.00))
                              (by unfold TEMP_CORRECTION_FACTORS; simp) (by norm_num) (by norm_num)]
                        exact ratingSelect_le _ _ (by norm_num) (by norm_num) (by norm_num) r
                      · by_cases hc11 : n ≤ 34
                        · have hlo : (31 : ℚ) ≤ (n : ℚ) := by exact_mod_cast (by omega : 31 ≤ n)
                          have ha : (n : ℚ) ≤ 34 := by exact_mod_cast hc11
                          rw [tc_band ((n : ℚ) + 1) r ((31, 35), (0.91, 0.94, 0.96))
                                (by unfold TEMP_CORRECTION_FACTORS; simp) (by linarith) (by linarith),
                              tc_band (n : ℚ) r ((31, 35), (0.91, 0.94, 0.96))
                                (by unfold TEMP_CORRECTION_FACTORS; simp) (by linarith) (by linarith)]
                        · by_cases hc12 : n = 35
                          · subst hc12
                            rw [tc_band ((35 : ℕ) + 1 : ℚ) r ((36, 40), (0.82, 0.88, 0.91))
                                  (by unfold TEMP_CORRECTION_FACTORS; simp) (by norm_num) (by norm_num),
                                tc_band ((35 : ℕ) : ℚ) r ((31, 35), (0.91, 0.94, 0.96))
                                  (by unfold TEMP_CORRECTION_FACTORS; simp) (by norm_num) (by norm_num)]
                            exact ratingSelect_le _ _ (by norm_num) (by norm_num) (by norm_num) r
                          · by_cases hc13 : n ≤ 39
                            · have hlo : (36 : ℚ) ≤ (n : ℚ) := by exact_mod_cast (by omega : 36 ≤ n)
                              have ha : (n : ℚ) ≤ 39 := by exact_mod_cast hc13
                              rw [tc_band ((n : ℚ) + 1) r ((36, 40), (0.82, 0.88, 0.91))
                                    (by unfold TEMP_CORRECTION_FACTORS; simp) (by linarith) (by linarith),
                                  tc_band (n : ℚ) r ((36, 40), (0.82, 0.88, 0.91))
                                    (by unfold TEMP_CORRECTION_FACTORS; simp) (by linarith) (by linarith)]
                            · by_cases hc14 : n = 40
                              · subst hc14
                                rw [tc_band ((40 : ℕ) + 1 : ℚ) r ((41, 45), (0.71, 0.82, 0.87))
                                      (by unfold TEMP_CORRECTION_FACTORS; simp) (by norm_num) (by norm_num),
                                    tc_band ((40 : ℕ) : ℚ) r ((36, 40), (0.82, 0.88, 0.91))
                                      (by unfold TEMP_CORRECTION_FACTORS; simp) (by norm_num) (by norm_num)]
                                exact ratingSelect_le _ _ (by norm_num) (by norm_num) (by norm_num) r
                              · by_cases hc15 : n ≤ 44
                                · have hlo : (41 : ℚ) ≤ (n : ℚ) := by exact_mod_cast (by omega : 41 ≤ n)
                                  have ha : (n : ℚ) ≤ 44 := by exact_mod_cast hc15
                                  rw [tc_band ((n : ℚ) + 1) r ((41, 45), (0.71, 0.82, 0.87))
                                        (by unfold TEMP_CORRECTION_FACTORS; simp) (by linarith) (by linarith),
                                      tc_band (n : ℚ) r ((41, 45), (0.71, 0.82, 0.87))
                                        (by unfold TEMP_CORRECTION_FACTORS; simp) (by linarith) (by linarith)]
                                · by_cases hc16 : n = 45
                                  · subst hc16
                                    rw [tc_band ((45 : ℕ) + 1 : ℚ) r ((46, 50), (0.58, 0.75, 0.82))
                                          (by unfold TEMP_CORRECTION_FACTORS; simp) (by norm_num) (by norm_num),
                                        tc_band ((45 : ℕ) : ℚ) r ((41, 45), (0.71, 0.82, 0.87))
                                          (by unfold TEMP_CORRECTION_FACTORS; simp) (by norm_num) (by norm_num)]
                                    exact ratingSelect_le _ _ (by norm_num) (by norm_num) (by norm_num) r
                                  · by_cases hc17 : n ≤ 49
                                    · have hlo : (46 : ℚ) ≤ (n : ℚ) := by exact_mod_cast (by omega : 46 ≤ n)
                                      have ha : (n : ℚ) ≤ 49 := by exact_mod_cast hc17
                                      rw [tc_band ((n : ℚ) + 1) r ((46, 50), (0.58, 0.75, 0.82))
                                            (by unfold TEMP_CORRECTION_FACTORS; simp) (by linarith) (by linarith),
                                          tc_band (n : ℚ) r ((46, 50), (0.58, 0.75, 0.82))
                                            (by unfold TEMP_CORRECTION_FACTORS; simp) (by linarith) (by linarith)]
                                    · by_cases hc18 : n = 50
                                      · subst hc18
                                        rw [tc_band ((50 : ℕ) + 1 : ℚ) r ((51, 55), (0.41, 0.67, 0.76))
                                              (by unfold TEMP_CORRECTION_FACTORS; simp) (by norm_num) (by norm_num),
                                            tc_band ((50 : ℕ) : ℚ) r ((46, 50), (0.58, 0.75, 0.82))
                                              (by unfold TEMP_CORRECTION_FACTORS; simp) (by norm_num) (by norm_num)]
                                        exact ratingSelect_le _ _ (by norm_num) (by norm_num) (by norm_num) r
                                      · by_cases hc19 : n ≤ 54
                                        · have hlo : (51 : ℚ) ≤ (n : ℚ) := by exact_mod_cast (by omega : 51 ≤ n)
                                          have ha : (n : ℚ) ≤ 54 := by exact_mod_cast hc19
                                          rw [tc_band ((n : ℚ) + 1) r ((51, 55), (0.41, 0.67, 0.76))
                                                (by unfold TEMP_CORRECTION_FACTORS; simp) (by linarith) (by linarith),
                                              tc_band (n : ℚ) r ((51, 55), (0.41, 0.67, 0.76))
                                                (by unfold TEMP_CORRECTION_FACTORS; simp) (by linarith) (by linarith)]
                                        · by_cases hc20 : n = 55
                                          · subst hc20
                                            rw [tc_band ((55 : ℕ) + 1 : ℚ) r ((56, 60), (0.00, 0.58, 0.71))
                                                  (by unfold TEMP_CORRECTION_FACTORS; simp) (by norm_num) (by norm_num),
                                                tc_band ((55 : ℕ) : ℚ) r ((51, 55), (0.41, 0.67, 0.76))
                                                  (by unfold TEMP_CORRECTION_FACTORS; simp) (by norm_num) (by norm_num)]
                                            exact ratingSelect_le _ _ (by norm_num) (by norm_num) (by norm_num) r
                                          · by_cases hc21 : n ≤ 59
                                            · have hlo : (56 : ℚ) ≤ (n : ℚ) := by exact_mod_cast (by omega : 56 ≤ n)
                                              have ha : (n : ℚ) ≤ 59 := by exact_mod_cast hc21
                                              rw [tc_band ((n : ℚ) + 1) r ((56, 60), (0.00, 0.58, 0.71))
                                                    (by unfold TEMP_CORRECTION_FACTORS; simp) (by linarith) (by linarith),
                                                  tc_band (n : ℚ) r ((56, 60), (0.00, 0.58, 0.71))
                                                    (by unfold TEMP_CORRECTION_FACTORS; simp) (by linarith) (by linarith)]
                                            · by_cases hc22 : n = 60
                                              · subst hc22
                                                rw [tc_band ((60 : ℕ) + 1 : ℚ) r ((61, 70), (0.00, 0.47, 0.65))
                                                      (by unfold TEMP_CORRECTION_FACTORS; simp) (by norm_num) (by norm_num),
                                                    tc_band ((60 : ℕ) : ℚ) r ((56, 60), (0.00, 0.58, 0.71))
                                                      (by unfold TEMP_CORRECTION_FACTORS; simp) (by norm_num) (by norm_num)]
                                                exact ratingSelect_le _ _ (by norm_num) (by norm_num) (by norm_num) r
                                              · by_cases hc23 : n ≤ 69
                                                · have hlo : (61 : ℚ) ≤ (n : ℚ) := by
                                                    exact_mod_cast (by omega : 61 ≤ n)
                                                  have ha : (n : ℚ) ≤ 69 := by exact_mod_cast hc23
                                                  rw [tc_band ((n : ℚ) + 1) r ((61, 70), (0.00, 0.47, 0.65))
                                                        (by unfold TEMP_CORRECTION_FACTORS; simp) (by linarith) (by linarith),
                                                      tc_band (n : ℚ) r ((61, 70), (0.00, 0.47, 0.65))
                                                        (by unfold TEMP_CORRECTION_FACTORS; simp) (by linarith) (by linarith)]
                                                · have hn70 : n = 70 := by omega
                                                  subst hn70
                                                  rw [tc_high ((70 : ℕ) + 1 : ℚ) r (by norm_num),
                                                      tc_band ((70 : ℕ) : ℚ) r ((61, 70), (0.00, 0.47, 0.65))
                                                        (by unfold TEMP_CORRECTION_FACTORS; simp) (by norm_num) (by norm_num)]
                                                  unfold ratingSelect
                                                  split_ifs <;> norm_num

/-- The correction factor is antitone over whole-degree ambients. -/
lemma tc_nat_antitone (r : ℕ) {m n : ℕ} (h : m ≤ n) :
    get_temp_correction (n : ℚ) r ≤ get_temp_correction (m : ℚ) r := by
  have hstep : ∀ k : ℕ, (fun k : ℕ => get_temp_correction (k : ℚ) r) (k + 1) ≤
      (fun k : ℕ => get_temp_correction (k : ℚ) r) k := by
    intro k
    simp only
    rw [show ((k + 1 : ℕ) : ℚ) = (k : ℚ) + 1 by push_cast; ring]
    exact tc_nat_step r k
  have ha : Antitone (fun k : ℕ => get_temp_correction (k : ℚ) r) :=
    antitone_nat_of_succ_le hstep
  exact ha h

/-- Closed form of `get_grouping_factor`. -/
lemma gf_closed (c : ℕ) :
    get_grouping_factor c =
      if c ≤ 3 then 1.0 else if c ≤ 6 then 0.80 else if c ≤ 9 then 0.70
      else if c ≤ 20 then 0.50 else if c ≤ 30 then 0.45 else if c ≤ 40 then 0.40
      else 0.35 := by
  by_cases h1 : c ≤ 3
  · unfold get_grouping_factor GROUPING_FACTORS
    rw [List.find?_cons_of_pos _ (by simpa using h1), if_pos h1]
  · by_cases h2 : c ≤ 6
    · unfold get_grouping_factor GROUPING_FACTORS
      rw [List.find?_cons_of_neg _ (by simpa using h1),
        List.find?_cons_of_pos _ (by simpa using h2), if_neg h1, if_pos h2]
    · by_cases h3 : c ≤ 9
      · unfold get_grouping_factor GROUPING_FACTORS
        rw [List.find?_cons_of_neg _ (by simpa using h1),
          List.find?_cons_of_neg _ (by simpa using h2),
          List.find?_cons_of_pos _ (by simpa using h3), if_neg h1, if_neg h2, if_pos h3]
      · by_cases h4 : c ≤ 20
        · unfold get_grouping_factor GROUPING_FACTORS
          rw [List.find?_cons_of_neg _ (by simpa using h1),
            List.find?_cons_of_neg _ (by simpa using h2),
            List.find?_cons_of_neg _ (by simpa using h3),
            List.find?_cons_of_pos _ (by simpa using h4),
            if_neg h1, if_neg h2, if_neg h3, if_pos h4]
        · by_cases h5 : c ≤ 30
          · unfold get_grouping_factor GROUPING_FACTORS
            rw [List.find?_cons_of_neg _ (by simpa using h1),
              List.find?_cons_of_neg _ (by simpa using h2),
              List.find?_cons_of_neg _ (by simpa using h3),
              List.find?_cons_of_neg _ (by simpa using h4),
              List.find?_cons_of_pos _ (by simpa using h5),
              if_neg h1, if_neg h2, if_neg h3, if_neg h4, if_pos h5]
          · by_cases h6 : c ≤ 40
            · unfold get_grouping_factor GROUPING_FACTORS
              rw [List.find?_cons_of_neg _ (by simpa using h1),
                List.find?_cons_of_neg _ (by simpa using h2),
                List.find?_cons_of_neg _ (by simpa using h3),
                List.find?_cons_of_neg _ (by simpa using h4),
                List.find?_cons_of_neg _ (by simpa using h5),
                List.find?_cons_of_pos _ (by simpa using h6),
                if_neg h1, if_neg h2, if_neg h3, if_neg h4, if_neg h5, if_pos h6]
            · by_cases h7 : c ≤ 100
              · unfold get_grouping_factor GROUPING_FACTORS
                rw [List.find?_cons_of_neg _ (by simpa using h1),
                  List.find?_cons_of_neg _ (by simpa using h2),
                  List.find?_cons_of_neg _ (by simpa using h3),
                  List.find?_cons_of_neg _ (by simpa using h4),
                  List.find?_cons_of_neg _ (by simpa using h5),
                  List.find?_cons_of_neg _ (by simpa using h6),
                  List.find?_cons_of_pos _ (by simpa using h7),
                  if_neg h1, if_neg h2, if_neg h3, if_neg h4, if_neg h5, if_neg h6]
              · have hnone : GROUPING_FACTORS.find? (fun p => decide (c ≤ p.1)) = none := by
                  rw [List.find?_eq_none]
                  intro p hp
                  simp only [decide_eq_true_eq]
                  fin_cases hp <;> simp only <;> omega
                unfold get_grouping_factor
                rw [hnone, if_neg h1, if_neg h2, if_neg h3, if_neg h4, if_neg h5, if_neg h6]

/-- The grouping factor is never negative. -/
lemma gf_nonneg (c : ℕ) : 0 ≤ get_grouping_factor c := by
  rw [gf_closed]
  split_ifs <;> norm_num

/-- The grouping factor is antitone in the conductor count. -/
lemma gf_antitone {m n : ℕ} (h : m ≤ n) :
    get_grouping_factor n ≤ get_grouping_factor m := by
  have hstep : ∀ k : ℕ, (fun k : ℕ => get_grouping_factor k) (k + 1) ≤
      (fun k : ℕ => get_grouping_factor k) k := by
    intro k
    simp only
    rw [gf_closed, gf_closed]
    split_ifs <;> first | (exfalso; omega) | norm_num
  have ha : Antitone (fun k : ℕ => get_grouping_factor k) :=
    antitone_nat_of_succ_le hstep
  exact ha h

/-- Raising the ambient (in whole degrees) only lowers the combined derating
    factor. -/
lemma total_derating_ambient_antitone (params : InstallationParams) {t1 t2 : ℕ}
    (h : t1 ≤ t2) :
    total_derating (withAmbient params (t2 : ℚ)) ≤
      total_derating (withAmbient params (t1 : ℚ)) := by
  unfold total_derating withAmbient
  exact mul_le_mul_of_nonneg_right (tc_nat_antitone _ h)
    (gf_nonneg params.raceway_count)

/-- Raising the conductor count only lowers the combined derating factor. -/
lemma total_derating_count_antitone (params : InstallationParams) {c1 c2 : ℕ}
    (h : c1 ≤ c2) :
    total_derating (withCount params c2) ≤ total_derating (withCount params c1) := by
  unfold total_derating withCount
  exact mul_le_mul_of_nonneg_left (gf_antitone h)
    (tc_nonneg params.ambient_temp_c params.insulation_rating.value)

/-- The voltage drop reads only the conduit type and length of the
    installation parameters. -/
lemma vd_congr (current : ℝ) (s : String) (p1 p2 : InstallationParams)
    (voltage : ℝ) (phases : ℕ) (pf : ℝ)
    (hlen : p2.length_meters = p1.length_meters)
    (hcond : p2.conduit_type = p1.conduit_type) :
    calculate_voltage_drop current s p2 voltage phases pf =
      calculate_voltage_drop current s p1 voltage phases pf := by
  unfold calculate_voltage_drop
  rw [hlen, hcond]

/-- A size passing the checks under the smaller derating factor passes them
    under the larger one (installation otherwise identical). -/
lemma passChecks_mono (load : LoadInput) (p1 p2 : InstallationParams)
    (hlen : p2.length_meters = p1.length_meters)
    (hcond : p2.conduit_type = p1.conduit_type)
    (hins : p2.insulation_rating = p1.insulation_rating)
    (hD : total_derating p2 ≤ total_derating p1) :
    ∀ s, passChecks load p2 s → passChecks load p1 s := by
  intro s hp
  obtain ⟨hmem, hreq, hder, hvd⟩ := hp
  refine ⟨hmem, hreq, ?_, ?_⟩
  · refine le_trans hder ?_
    unfold deratedAmps
    rw [hins]
    have hcast : ((total_derating p2 : ℚ) : ℝ) ≤ ((total_derating p1 : ℚ) : ℝ) := by
      exact_mod_cast hD
    exact mul_le_mul_of_nonneg_left hcast (by positivity)
  · rw [vd_congr (actual_load load) s p1 p2 load.voltage load.phases
      load.power_factor hlen hcond] at hvd
    exact hvd

open Classical in
/-- `firstIdx` is antitone under pointwise predicate implication. -/
lemma firstIdx_mono (p q : String → Prop) (h : ∀ s, p s → q s) :
    ∀ l : List String, firstIdx q l ≤ firstIdx p l := by
  intro l
  induction l with
  | nil => exact le_refl 0
  | cons s rest ih =>
    unfold firstIdx
    by_cases hq : q s
    · rw [if_pos hq]
      exact Nat.zero_le _
    · rw [if_neg hq, if_neg (fun hp => hq (h s hp))]
      exact Nat.succ_le_succ ih

open Classical in
/-- When nothing satisfies the predicate, `firstIdx` is the list length. -/
lemma firstIdx_eq_length (p : String → Prop) :
    ∀ l : List String, (∀ x ∈ l, ¬ p x) → firstIdx p l = l.length := by
  intro l
  induction l with
  | nil => intro _; rfl
  | cons s rest ih =>
    intro hall
    unfold firstIdx
    rw [if_neg (hall s (List.mem_cons_self s rest))]
    rw [ih (fun x hx => hall x (List.mem_cons_of_mem s hx))]
    rfl

open Classical in
/-- On a duplicate-free list, the index of the element `find?` returns is
    the first index satisfying the predicate. -/
lemma firstIdx_find?_eq (p : String → Prop) :
    ∀ (l : List String), l.Nodup → ∀ s : String,
      l.find? (fun x => decide (p x)) = some s →
      firstIdx (fun x => x = s) l = firstIdx p l := by
  intro l
  induction l with
  | nil => intro _ s hf; simp at hf
  | cons a rest ih =>
    intro hnd s hf
    rw [List.nodup_cons] at hnd
    by_cases hpa : p a
    · rw [List.find?_cons_of_pos _ (by simpa using hpa)] at hf
      injection hf with hf
      subst hf
      unfold firstIdx
      rw [if_pos rfl, if_pos hpa]
    · rw [List.find?_cons_of_neg _ (by simpa using hpa)] at hf
      have hsmem : s ∈ rest := List.mem_of_find?_eq_some hf
      have has : ¬ (a = s) := fun he => hnd.1 (he ▸ hsmem)
      unfold firstIdx
      rw [if_neg has, if_neg hpa, ih hnd.2 s hf]

open Classical in
/-- Bridge: the rank of the selected size equals the first index passing the
    three checks (with "MAX_EXCEEDED" ranking past the end of the list). -/
lemma sizeRank_select (load : LoadInput) (params : InstallationParams) :
    sizeRank ((select_conductor_and_breaker load params).size) =
      firstIdx (passChecks load params) selectionSizes := by
  have h := selectLoop_eq load params selectionSizes
  cases hf : selectionSizes.find? (fun s => decide (passChecks load params s)) with
  | none =>
    rw [hf] at h
    have hsize : (select_conductor_and_breaker load params).size = "MAX_EXCEEDED" := by
      simp [select_conductor_and_breaker, h]
    rw [hsize]
    have hnost : ∀ x ∈ selectionSizes, ¬ (x = "MAX_EXCEEDED") := by decide
    have hnopass : ∀ x ∈ selectionSizes, ¬ passChecks load params x := by
      intro x hx hp
      have := List.find?_eq_none.mp hf x hx
      simp only [decide_eq_true_eq] at this
      exact this hp
    unfold sizeRank
    rw [firstIdx_eq_length _ selectionSizes hnost,
      firstIdx_eq_length _ selectionSizes hnopass]
  | some s =>
    rw [hf] at h
    have hsize : (select_conductor_and_breaker load params).size = s := by
      simp [select_conductor_and_breaker, h]
    rw [hsize]
    unfold sizeRank
    exact firstIdx_find?_eq (passChecks load params) selectionSizes
      (by decide) s hf

/-- Zero-length installations have zero voltage drop for any size present in
    Table 9. -/
lemma vd_zero_len (current : ℝ) (s : String) (params : InstallationParams)
    (voltage : ℝ) (phases : ℕ) (pf : ℝ) (hlen : params.length_meters = 0)
    (hsome : (TABLE_9_IMPEDANCE.find? (fun e => decide (e.1 = s))).isSome = true) :
    calculate_voltage_drop current s params voltage phases pf = 0 := by
  unfold calculate_voltage_drop
  obtain ⟨e, he⟩ := Option.isSome_iff_exists.mp hsome
  rw [he, hlen]
  simp

/-- C5 counterexample, in two regimes, both with a 33 A load, zero length
    and 75 C insulation.  Fractional ambient: with 3 conductors, 35 C
    selects size "8" (35 C is in the 0.94 band, so size "10" fails the
    derated check: 35·0.94 = 32.9 < 33), but the hotter 35.5 C falls in the
    inter-band gap, gets the fallback factor 1.0, and selects the earlier
    "10" (35·1.0 ≥ 33).  Whole-degree sub-zero ambient: with 4 conductors
    (grouping 0.8), -1 C gets the below-table fallback 1.0 and selects "8"
    (35·0.8 = 28 < 33 rejects "10"), but 0 C enters the first band with
    factor 1.20 and selects the earlier "10" (35·0.96 = 33.6 ≥ 33).  In
    both regimes increasing the ambient moved the selection to an earlier
    size. -/
theorem c5_monotonicity_counterexample :
    ((35 : ℚ) ≤ 71 / 2 ∧
     (select_conductor_and_breaker (overrideLoad 33)
       (withAmbient exParams 35)).size = "8" ∧
     (select_conductor_and_breaker (overrideLoad 33)
       (withAmbient exParams (71 / 2))).size = "10") ∧
    ((-1 : ℚ) ≤ 0 ∧
     (select_conductor_and_breaker (overrideLoad 33)
       (withAmbient (withCount exParams 4) (-1))).size = "8" ∧
     (select_conductor_and_breaker (overrideLoad 33)
       (withAmbient (withCount exParams 4) 0)).size = "10") ∧
    sizeRank "10" < sizeRank "8" := by
  classical
  have h_design : calculate_design_current (overrideLoad 33) = 33 := by
    simp [calculate_design_current, overrideLoad]
  have h_actual : actual_load (overrideLoad 33) = 33 := by
    unfold actual_load
    rw [if_neg (by decide : ¬ ((overrideLoad 33).is_continuous = true))]
    exact h_design
  have hD35 : total_derating (withAmbient exParams 35) = 0.94 := by
    have ht : get_temp_correction 35 75 = ratingSelect (0.91, 0.94, 0.96) 75 :=
      tc_band 35 75 ((31, 35), (0.91, 0.94, 0.96))
        (by unfold TEMP_CORRECTION_FACTORS; simp) (by norm_num) (by norm_num)
    simp only [total_derating, withAmbient, exParams, InsulationRating.value]
    rw [ht, gf_closed]
    norm_num [ratingSelect]
  have hD355 : total_derating (withAmbient exParams (71 / 2)) = 1 := by
    have ht : get_temp_correction (71 / 2) 75 = 1 := by
      refine tc_gap (71 / 2) 75 (by norm_num) (by norm_num) ?_
      intro b hb
      fin_cases hb <;> norm_num
    simp only [total_derating, withAmbient, exParams, InsulationRating.value]
    rw [ht, gf_closed]
    norm_num
  have h14 : ampD "14" 75 = 20 := by decide
  have h12 : ampD "12" 75 = 25 := by decide
  have h10 : ampD "10" 75 = 35 := by decide
  have h8 : ampD "8" 75 = 50 := by decide
  -- failing the terminal check is independent of the ambient
  have hnp14 : ∀ p : InstallationParams, ¬ passChecks (overrideLoad 33) p "14" := by
    intro p hp
    have := hp.2.1
    rw [h_design, h14] at this
    norm_num at this
  have hnp12 : ∀ p : InstallationParams, ¬ passChecks (overrideLoad 33) p "12" := by
    intro p hp
    have := hp.2.1
    rw [h_design, h12] at this
    norm_num at this
  have hval35 : (withAmbient exParams 35).insulation_rating.value = 75 := rfl
  have hval355 : (withAmbient exParams (71 / 2)).insulation_rating.value = 75 := rfl
  have hnp10_35 : ¬ passChecks (overrideLoad 33) (withAmbient exParams 35) "10" := by
    intro hp
    have hd := hp.2.2.1
    unfold deratedAmps at hd
    rw [h_actual, hval35, h10, hD35] at hd
    rw [show ((0.94 : ℚ) : ℝ) = 0.94 by norm_num] at hd
    norm_num at hd
  have hvd8 : calculate_voltage_drop (actual_load (overrideLoad 33)) "8"
      (withAmbient exParams 35) (overrideLoad 33).voltage (overrideLoad 33).phases
      (overrideLoad 33).power_factor = 0 :=
    vd_zero_len _ _ _ _ _ _ rfl (by decide)
  have hp8_35 : passChecks (overrideLoad 33) (withAmbient exParams 35) "8" := by
    refine ⟨by decide, ?_, ?_, ?_⟩
    · rw [h_design, h8]
      norm_num
    · unfold deratedAmps
      rw [h_actual, hval35, h8, hD35]
      rw [show ((0.94 : ℚ) : ℝ) = 0.94 by norm_num]
      norm_num
    · rw [hvd8]
      norm_num
  have hvd10 : calculate_voltage_drop (actual_load (overrideLoad 33)) "10"
      (withAmbient exParams (71 / 2)) (overrideLoad 33).voltage
      (overrideLoad 33).phases (overrideLoad 33).power_factor = 0 :=
    vd_zero_len _ _ _ _ _ _ rfl (by decide)
  have hp10_355 : passChecks (overrideLoad 33) (withAmbient exParams (71 / 2)) "10" := by
    refine ⟨by decide, ?_, ?_, ?_⟩
    · rw [h_design, h10]
      norm_num
    · unfold deratedAmps
      rw [h_actual, hval355, h10, hD355]
      norm_num
    · rw [hvd10]
      norm_num
  have hfind35 : selectionSizes.find?
      (fun s => decide (passChecks (overrideLoad 33) (withAmbient exParams 35) s)) =
      some "8" := by
    unfold selectionSizes
    rw [List.find?_cons_of_neg _ (by simpa using hnp14 (withAmbient exParams 35)),
      List.find?_cons_of_neg _ (by simpa using hnp12 (withAmbient exParams 35)),
      List.find?_cons_of_neg _ (by simpa using hnp10_35),
      List.find?_cons_of_pos _ (by simpa using hp8_35)]
  have hfind355 : selectionSizes.find?
      (fun s => decide (passChecks (overrideLoad 33) (withAmbient exParams (71 / 2)) s)) =
      some "10" := by
    unfold selectionSizes
    rw [List.find?_cons_of_neg _ (by simpa using hnp14 (withAmbient exParams (71 / 2))),
      List.find?_cons_of_neg _ (by simpa using hnp12 (withAmbient exParams (71 / 2))),
      List.find?_cons_of_pos _ (by simpa using hp10_355)]
  have h35 := selectLoop_eq (overrideLoad 33) (withAmbient exParams 35) selectionSizes
  rw [hfind35] at h35
  have h355 := selectLoop_eq (overrideLoad 33) (withAmbient exParams (71 / 2))
    selectionSizes
  rw [hfind355] at h355
  -- the whole-degree sub-zero regime: -1 C vs 0 C, with 4 conductors
  have hvaln : (withAmbient (withCount exParams 4) (-1)).insulation_rating.value =
      75 := rfl
  have hval0 : (withAmbient (withCount exParams 4) 0).insulation_rating.value =
      75 := rfl
  have hDneg : total_derating (withAmbient (withCount exParams 4) (-1)) = 0.8 := by
    have ht : get_temp_correction (-1) 75 = 1 := tc_low (-1) 75 (by norm_num)
    simp only [total_derating, withAmbient, withCount, exParams, InsulationRating.value]
    rw [ht, gf_closed]
    norm_num
  have hD0 : total_derating (withAmbient (withCount exParams 4) 0) = 0.96 := by
    have ht : get_temp_correction 0 75 = ratingSelect (1.29, 1.20, 1.15) 75 :=
      tc_band 0 75 ((0, 10), (1.29, 1.20, 1.15))
        (by unfold TEMP_CORRECTION_FACTORS; simp) (by norm_num) (by norm_num)
    simp only [total_derating, withAmbient, withCount, exParams, InsulationRating.value]
    rw [ht, gf_closed]
    norm_num [ratingSelect]
  have hnp10_neg : ¬ passChecks (overrideLoad 33)
      (withAmbient (withCount exParams 4) (-1)) "10" := by
    intro hp
    have hd := hp.2.2.1
    unfold deratedAmps at hd
    rw [h_actual, hvaln, h10, hDneg] at hd
    rw [show ((0.8 : ℚ) : ℝ) = 0.8 by norm_num] at hd
    norm_num at hd
  have hvd8n : calculate_voltage_drop (actual_load (overrideLoad 33)) "8"
      (withAmbient (withCount exParams 4) (-1)) (overrideLoad 33).voltage
      (overrideLoad 33).phases (overrideLoad 33).power_factor = 0 :=
    vd_zero_len _ _ _ _ _ _ rfl (by decide)
  have hp8_neg : passChecks (overrideLoad 33)
      (withAmbient (withCount exParams 4) (-1)) "8" := by
    refine ⟨by decide, ?_, ?_, ?_⟩
    · rw [h_design, h8]
      norm_num
    · unfold deratedAmps
      rw [h_actual, hvaln, h8, hDneg]
      rw [show ((0.8 : ℚ) : ℝ) = 0.8 by norm_num]
      norm_num
    · rw [hvd8n]
      norm_num
  have hvd10n : calculate_voltage_drop (actual_load (overrideLoad 33)) "10"
      (withAmbient (withCount exParams 4) 0) (overrideLoad 33).voltage
      (overrideLoad 33).phases (overrideLoad 33).power_factor = 0 :=
    vd_zero_len _ _ _ _ _ _ rfl (by decide)
  have hp10_0 : passChecks (overrideLoad 33)
      (withAmbient (withCount exParams 4) 0) "10" := by
    refine ⟨by decide, ?_, ?_, ?_⟩
    · rw [h_design, h10]
      norm_num
    · unfold deratedAmps
      rw [h_actual, hval0, h10, hD0]
      rw [show ((0.96 : ℚ) : ℝ) = 0.96 by norm_num]
      norm_num
    · rw [hvd10n]
      norm_num
  have hfindneg : selectionSizes.find?
      (fun s => decide (passChecks (overrideLoad 33)
        (withAmbient (withCount exParams 4) (-1)) s)) = some "8" := by
    unfold selectionSizes
    rw [List.find?_cons_of_neg _
        (by simpa using hnp14 (withAmbient (withCount exParams 4) (-1))),
      List.find?_cons_of_neg _
        (by simpa using hnp12 (withAmbient (withCount exParams 4) (-1))),
      List.find?_cons_of_neg _ (by simpa using hnp10_neg),
      List.find?_cons_of_pos _ (by simpa using hp8_neg)]
  have hfind0 : selectionSizes.find?
      (fun s => decide (passChecks (overrideLoad 33)
        (withAmbient (withCount exParams 4) 0) s)) = some "10" := by
    unfold selectionSizes
    rw [List.find?_cons_of_neg _
        (by simpa using hnp14 (withAmbient (withCount exParams 4) 0)),
      List.find?_cons_of_neg _
        (by simpa using hnp12 (withAmbient (withCount exParams 4) 0)),
      List.find?_cons_of_pos _ (by simpa using hp10_0)]
  have hneg := selectLoop_eq (overrideLoad 33)
    (withAmbient (withCount exParams 4) (-1)) selectionSizes
  rw [hfindneg] at hneg
  have h0 := selectLoop_eq (overrideLoad 33)
    (withAmbient (withCount exParams 4) 0) selectionSizes
  rw [hfind0] at h0
  refine ⟨⟨by norm_num, ?_, ?_⟩, ⟨by norm_num, ?_, ?_⟩, ?_⟩
  · simp [select_conductor_and_breaker, h35]
  · simp [select_conductor_and_breaker, h355]
  · simp [select_conductor_and_breaker, hneg]
  · simp [select_conductor_and_breaker, h0]
  · have hr10 : sizeRank "10" = 2 := by
      simp [sizeRank, firstIdx, NECLogic.selectionSizes]
    have hr8 : sizeRank "8" = 3 := by
      simp [sizeRank, firstIdx, NECLogic.selectionSizes]
    rw [hr10, hr8]
    norm_num

/-- C5 (amended): with all other installation parameters fixed, increasing
    the ambient temperature over whole degrees Celsius at or above 0 C, or
    increasing the conductor-grouping count, never moves the selected
    conductor size to an earlier position in the ordered size list
    (MAX_EXCEEDED ranking past the end).  Outside that region the property
    fails twice over, through the same two table fallbacks corrected in the
    temperature-correction claim: fractional ambients in the inter-band gaps
    and sub-zero ambients entering the first band both raise the factor
    (see the two regimes of the counterexample). -/
theorem c5_monotone_amended (load : LoadInput) (params : InstallationParams)
    (t1 t2 : ℕ) (ht : t1 ≤ t2) (c1 c2 : ℕ) (hc : c1 ≤ c2) :
    sizeRank ((select_conductor_and_breaker load (withAmbient params (t1 : ℚ))).size) ≤
      sizeRank ((select_conductor_and_breaker load (withAmbient params (t2 : ℚ))).size) ∧
    sizeRank ((select_conductor_and_breaker load (withCount params c1)).size) ≤
      sizeRank ((select_conductor_and_breaker load (withCount params c2)).size) := by
  constructor
  · rw [sizeRank_select load (withAmbient params (t1 : ℚ)),
      sizeRank_select load (withAmbient params (t2 : ℚ))]
    exact firstIdx_mono _ _
      (passChecks_mono load (withAmbient params (t1 : ℚ)) (withAmbient params (t2 : ℚ))
        rfl rfl rfl (total_derating_ambient_antitone params ht)) selectionSizes
  · rw [sizeRank_select load (withCount params c1),
      sizeRank_select load (withCount params c2)]
    exact firstIdx_mono _ _
      (passChecks_mono load (withCount params c1) (withCount params c2)
        rfl rfl rfl (total_derating_count_antitone params hc)) selectionSizes

/-- Witness for C5 (amended) at a 20 A load, ambients 30 and 40 C, counts 3
    and 7. -/
theorem c5_monotone_amended_witness :
    (30 : ℕ) ≤ 40 ∧ (3 : ℕ) ≤ 7 ∧
    (sizeRank ((select_conductor_and_breaker (overrideLoad 20)
        (withAmbient exParams ((30 : ℕ) : ℚ))).size) ≤
      sizeRank ((select_conductor_and_breaker (overrideLoad 20)
        (withAmbient exParams ((40 : ℕ) : ℚ))).size) ∧
     sizeRank ((select_conductor_and_breaker (overrideLoad 20)
        (withCount exParams 3)).size) ≤
      sizeRank ((select_conductor_and_breaker (overrideLoad 20)
        (withCount exParams 7)).size)) :=
  ⟨by norm_num, by norm_num,
    c5_monotone_amended (overrideLoad 20) exParams 30 40 (by norm_num) 3 7 (by norm_num)⟩

/-! ### C8: motor breaker selection in NECCalculator -/

lemma breaker_ratings_rev_sorted :
    List.Sorted (fun a b => b ≤ a) BREAKER_RATINGS.reverse := by decide

/-- Motor branch of `select_breaker` when no rating reaches the 150%
    target: the `BREAKER_RATINGS[-1]` fallback. -/
lemma select_breaker_motor_none (load : Load) (hm : load.is_motor = true)
    (hf : BREAKER_RATINGS.find?
      (fun (r : ℕ) => decide (load.current_amps * 1.5 ≤ (r : ℚ))) = none) :
    NECCalculator.select_breaker load =
      (⟨1200, load.phases⟩, "NEC 430.52 (Motor 150-250%)") := by
  simp [NECCalculator.select_breaker, hm, hf]
  rfl

/-- Motor branch of `select_breaker` when the smallest rating ≥ 150% also
    respects the 250% ceiling. -/
lemma select_breaker_motor_found_ok (load : Load) (hm : load.is_motor = true)
    (m : ℕ)
    (hf : BREAKER_RATINGS.find?
      (fun (r : ℕ) => decide (load.current_amps * 1.5 ≤ (r : ℚ))) = some m)
    (hle : ¬ (load.current_amps * 2.5 < (m : ℚ))) :
    NECCalculator.select_breaker load =
      (⟨m, load.phases⟩, "NEC 430.52 (Motor 150-250%)") := by
  simp [NECCalculator.select_breaker, hm, hf, hle]

/-- Motor branch of `select_breaker` in the capped case when a rating below
    the 250% ceiling exists. -/
lemma select_breaker_motor_cap_some (load : Load) (hm : load.is_motor = true)
    (m g : ℕ)
    (hf : BREAKER_RATINGS.find?
      (fun (r : ℕ) => decide (load.current_amps * 1.5 ≤ (r : ℚ))) = some m)
    (hlt : load.current_amps * 2.5 < (m : ℚ))
    (hrev : BREAKER_RATINGS.reverse.find?
      (fun (r : ℕ) => decide ((r : ℚ) ≤ load.current_amps * 2.5)) = some g) :
    NECCalculator.select_breaker load =
      (⟨g, load.phases⟩, "NEC 430.52 (Motor 150-250%)" ++ " [CAPPED at 250%]") := by
  simp [NECCalculator.select_breaker, hm, hf, hlt, hrev]

/-- Motor branch of `select_breaker` in the capped case when no rating fits
    below the 250% ceiling: the 150% pick is kept, flagged. -/
lemma select_breaker_motor_cap_none (load : Load) (hm : load.is_motor = true)
    (m : ℕ)
    (hf : BREAKER_RATINGS.find?
      (fun (r : ℕ) => decide (load.current_amps * 1.5 ≤ (r : ℚ))) = some m)
    (hlt : load.current_amps * 2.5 < (m : ℚ))
    (hrev : BREAKER_RATINGS.reverse.find?
      (fun (r : ℕ) => decide ((r : ℚ) ≤ load.current_amps * 2.5)) = none) :
    NECCalculator.select_breaker load =
      (⟨m, load.phases⟩, "NEC 430.52 (Motor 150-250%)" ++ " [CAPPED at 250%]") := by
  simp [NECCalculator.select_breaker, hm, hf, hlt, hrev]

/-- C8 counterexample: the claim "breaker selection picks the smallest
    standard rating ≥ 1.5·ib" fails for a motor with ib = 1000 A: every
    standard rating is below 1.5·ib = 1500, and the code falls back to the
    largest rating 1200, which is not ≥ 1.5·ib. -/
theorem c8_motor_breaker_counterexample :
    (motorLoad 1000).is_motor = true ∧
    (motorLoad 1000).current_amps = 1000 ∧
    (NECCalculator.select_breaker (motorLoad 1000)).1.rated_current = 1200 ∧
    (∀ b ∈ BREAKER_RATINGS, (b : ℚ) < (motorLoad 1000).current_amps * 1.5) ∧
    ¬ ((motorLoad 1000).current_amps * 1.5 ≤
        ((NECCalculator.select_breaker (motorLoad 1000)).1.rated_current : ℚ)) := by
  have hib : (motorLoad 1000).current_amps = 1000 := by
    unfold Load.current_amps motorLoad
    norm_num
  have hnone : BREAKER_RATINGS.find?
      (fun (r : ℕ) => decide ((motorLoad 1000).current_amps * 1.5 ≤ (r : ℚ))) = none := by
    rw [List.find?_eq_none]
    intro b hb
    simp only [decide_eq_true_eq, hib]
    fin_cases hb <;> norm_num
  have heval : (NECCalculator.select_breaker (motorLoad 1000)).1.rated_current = 1200 := by
    rw [select_breaker_motor_none (motorLoad 1000) rfl hnone]
  refine ⟨rfl, hib, heval, ?_, ?_⟩
  · intro b hb
    rw [hib]
    fin_cases hb <;> norm_num
  · rw [heval, hib]
    norm_num

/-- C8 (amended): for every motor load whose 150% target is reachable by
    some standard rating (1.5·ib ≤ 1200), the selection takes the smallest
    standard rating m ≥ 1.5·ib; when m exceeds the 2.5·ib ceiling the
    rationale is flagged "[CAPPED at 250%]" and the largest standard rating
    ≤ 2.5·ib is taken instead when one exists, m being kept when none does;
    when no rating reaches 1.5·ib the code instead falls back to the largest
    standard rating 1200 (see the counterexample). -/
theorem c8_motor_breaker_amended (load : Load) (hm : load.is_motor = true)
    (hex : load.current_amps * 1.5 ≤ 1200) :
    ∃ m ∈ BREAKER_RATINGS,
      load.current_amps * 1.5 ≤ (m : ℚ) ∧
      (∀ b ∈ BREAKER_RATINGS, load.current_amps * 1.5 ≤ (b : ℚ) → m ≤ b) ∧
      ((m : ℚ) ≤ load.current_amps * 2.5 →
        (NECCalculator.select_breaker load).1.rated_current = m) ∧
      (load.current_amps * 2.5 < (m : ℚ) →
        (NECCalculator.select_breaker load).2 =
          "NEC 430.52 (Motor 150-250%)" ++ " [CAPPED at 250%]" ∧
        ((∀ b ∈ BREAKER_RATINGS, load.current_amps * 2.5 < (b : ℚ)) →
          (NECCalculator.select_breaker load).1.rated_current = m) ∧
        (∀ g ∈ BREAKER_RATINGS, (g : ℚ) ≤ load.current_amps * 2.5 →
          (∀ b ∈ BREAKER_RATINGS, (b : ℚ) ≤ load.current_amps * 2.5 → b ≤ g) →
          (NECCalculator.select_breaker load).1.rated_current = g)) := by
  classical
  have hmem : (1200 : ℕ) ∈ BREAKER_RATINGS := by decide
  have hp1200 : (fun (r : ℕ) => decide (load.current_amps * 1.5 ≤ (r : ℚ))) 1200 = true := by
    simp only [decide_eq_true_eq]
    exact_mod_cast hex
  obtain ⟨m, hfm⟩ := find?_isSome_of_mem BREAKER_RATINGS
    (fun (r : ℕ) => decide (load.current_amps * 1.5 ≤ (r : ℚ))) 1200 hmem hp1200
  have hmmem : m ∈ BREAKER_RATINGS := List.mem_of_find?_eq_some hfm
  have hmge : load.current_amps * 1.5 ≤ (m : ℚ) := by
    have := List.find?_some hfm
    simpa using this
  have hmleast : ∀ b ∈ BREAKER_RATINGS, load.current_amps * 1.5 ≤ (b : ℚ) → m ≤ b := by
    intro b hb hpb
    exact find?_least_of_sorted BREAKER_RATINGS _ breaker_ratings_sorted m hfm b hb
      (by simpa using hpb)
  refine ⟨m, hmmem, hmge, hmleast, ?_, ?_⟩
  · intro hle
    rw [select_breaker_motor_found_ok load hm m hfm (not_lt.mpr hle)]
  · intro hlt
    cases hrev : BREAKER_RATINGS.reverse.find?
        (fun (r : ℕ) => decide ((r : ℚ) ≤ load.current_amps * 2.5)) with
    | some g0 =>
      have he := select_breaker_motor_cap_some load hm m g0 hfm hlt hrev
      have hg0mem : g0 ∈ BREAKER_RATINGS :=
        List.mem_reverse.mp (List.mem_of_find?_eq_some hrev)
      have hg0le : (g0 : ℚ) ≤ load.current_amps * 2.5 := by
        have := List.find?_some hrev
        simpa using this
      refine ⟨by rw [he], ?_, ?_⟩
      · intro hall
        exact absurd hg0le (not_le.mpr (hall g0 hg0mem))
      · intro g hg hgle hgmax
        have h1 : g0 ≤ g := hgmax g0 hg0mem hg0le
        have h2 : g ≤ g0 := by
          refine find?_greatest_of_sorted BREAKER_RATINGS.reverse _
            breaker_ratings_rev_sorted g0 hrev g (List.mem_reverse.mpr hg) ?_
          simpa using hgle
        have hge : g0 = g := le_antisymm h1 h2
        rw [he, hge]
    | none =>
      have he := select_breaker_motor_cap_none load hm m hfm hlt hrev
      refine ⟨by rw [he], fun _ => by rw [he], ?_⟩
      intro g hg hgle _
      exfalso
      have := List.find?_eq_none.mp hrev g (List.mem_reverse.mpr hg)
      simp only [decide_eq_true_eq] at this
      exact this hgle

/-- Witness for C8 (amended) at a 100 A motor: 1.5·ib = 150 is itself a
    standard rating, which is ≤ 2.5·ib = 250, so it is selected. -/
theorem c8_motor_breaker_amended_witness :
    (motorLoad 100).is_motor = true ∧
    (motorLoad 100).current_amps * 1.5 ≤ 1200 ∧
    (∃ m ∈ BREAKER_RATINGS,
      (motorLoad 100).current_amps * 1.5 ≤ (m : ℚ) ∧
      (∀ b ∈ BREAKER_RATINGS, (motorLoad 100).current_amps * 1.5 ≤ (b : ℚ) → m ≤ b) ∧
      ((m : ℚ) ≤ (motorLoad 100).current_amps * 2.5 →
        (NECCalculator.select_breaker (motorLoad 100)).1.rated_current = m) ∧
      ((motorLoad 100).current_amps * 2.5 < (m : ℚ) →
        (NECCalculator.select_breaker (motorLoad 100)).2 =
          "NEC 430.52 (Motor 150-250%)" ++ " [CAPPED at 250%]" ∧
        ((∀ b ∈ BREAKER_RATINGS, (motorLoad 100).current_amps * 2.5 < (b : ℚ)) →
          (NECCalculator.select_breaker (motorLoad 100)).1.rated_current = m) ∧
        (∀ g ∈ BREAKER_RATINGS, (g : ℚ) ≤ (motorLoad 100).current_amps * 2.5 →
          (∀ b ∈ BREAKER_RATINGS, (b : ℚ) ≤ (motorLoad 100).current_amps * 2.5 → b ≤ g) →
          (NECCalculator.select_breaker (motorLoad 100)).1.rated_current = g))) := by
  have hib : (motorLoad 100).current_amps = 100 := by
    unfold Load.current_amps motorLoad
    norm_num
  have hex : (motorLoad 100).current_amps * 1.5 ≤ 1200 := by
    rw [hib]; norm_num
  exact ⟨rfl, hex, c8_motor_breaker_amended (motorLoad 100) rfl hex⟩

/-- Witness for C9 at a concrete size absent from Table 9 ("750" is in the
    conductor table but not the impedance table). -/
theorem c9_voltage_drop_witness :
    TABLE_9_IMPEDANCE.find? (fun e => decide (e.1 = "750")) = none ∧
    calculate_voltage_drop 10 "750"
      { length_meters := 30, conduit_type := ConduitType.steel,
        insulation_rating := InsulationRating.t75, ambient_temp_c := 30,
        raceway_count := 3 } 220 1 0.9 = 999 := by
  have hn : TABLE_9_IMPEDANCE.find? (fun e => decide (e.1 = "750")) = none := by
    decide
  exact ⟨hn, ((c9_voltage_drop 10 "750" _ 220 1 0.9).2 hn).1⟩

/-! ### C3: parallel feeder search -/

/-- Every parallel-capable size tops out at 665 A in the 75C column. -/
lemma feeder_caps_le : ∀ s ∈ feederSizes, ampD s 75 ≤ 665 := by decide

open Classical in
/-- No permitted size covers a per-set current above 665 A. -/
lemma findFeederSize_none (per : ℝ) (h : 665 < per) : findFeederSize per = none := by
  unfold findFeederSize
  rw [List.find?_eq_none]
  intro s hs
  simp only [Bool.and_eq_true, decide_eq_true_eq, not_and]
  intro _
  intro hle
  have hcap : ampD s 75 ≤ 665 := feeder_caps_le s hs
  have hcapR : (ampD s 75 : ℝ) ≤ 665 := by exact_mod_cast hcap
  linarith

open Classical in
/-- A per-set current of at most 665 A is covered by some permitted size
    (2000 kcmil at the latest). -/
lemma findFeederSize_some (per : ℝ) (h : per ≤ 665) :
    ∃ s, findFeederSize per = some s := by
  have hmem : "2000" ∈ feederSizes := by decide
  have hpb : (fun s => inAmpacityTable s && decide (per ≤ (ampD s 75 : ℝ))) "2000" =
      true := by
    simp only [Bool.and_eq_true]
    refine ⟨by decide, ?_⟩
    simp only [decide_eq_true_eq]
    rw [show ampD "2000" 75 = 665 from by decide]
    exact_mod_cast h
  exact find?_isSome_of_mem feederSizes _ "2000" hmem hpb

open Classical in
/-- Properties of a `findFeederSize` hit. -/
lemma findFeederSize_spec (per : ℝ) (s : String) (h : findFeederSize per = some s) :
    s ∈ feederSizes ∧ per ≤ (ampD s 75 : ℝ) := by
  unfold findFeederSize at h
  refine ⟨List.mem_of_find?_eq_some h, ?_⟩
  have := List.find?_some h
  simp only [Bool.and_eq_true, decide_eq_true_eq] at this
  exact this.2

/-- One step of the run-count search. -/
lemma runsLoop_cons (total : ℝ) (n : ℕ) (rest : List ℕ) (st : String × ℕ) :
    feederRunsLoop total (n :: rest) st =
      match findFeederSize (total / (n : ℝ)) with
      | some s =>
        if 1 < n then (s, n)
        else if total / (n : ℝ) ≤ 420 then (s, n)
        else feederRunsLoop total rest (s, n)
      | none => feederRunsLoop total rest st := rfl

/-- Skipping a run count with no covering size. -/
lemma runsLoop_skip (total : ℝ) (n : ℕ) (rest : List ℕ) (st : String × ℕ)
    (hn : findFeederSize (total / (n : ℝ)) = none) :
    feederRunsLoop total (n :: rest) st = feederRunsLoop total rest st := by
  rw [runsLoop_cons, hn]

/-- A hit at a run count above 1 breaks the search. -/
lemma runsLoop_hit (total : ℝ) (n : ℕ) (rest : List ℕ) (st : String × ℕ) (s : String)
    (hn : findFeederSize (total / (n : ℝ)) = some s) (h1 : 1 < n) :
    feederRunsLoop total (n :: rest) st = (s, n) := by
  rw [runsLoop_cons, hn]
  show (if 1 < n then (s, n)
    else if total / (n : ℝ) ≤ 420 then (s, n)
    else feederRunsLoop total rest (s, n)) = (s, n)
  rw [if_pos h1]

/-- The n = 1 step never breaks when the total is above the 420 A single-run
    ceiling; it only possibly updates the carried state. -/
lemma runsLoop_first_step (total : ℝ) (h420 : 420 < total) (rest : List ℕ)
    (st : String × ℕ) :
    ∃ st2 : String × ℕ,
      feederRunsLoop total (1 :: rest) st = feederRunsLoop total rest st2 := by
  cases hf : findFeederSize (total / ((1 : ℕ) : ℝ)) with
  | none => exact ⟨st, runsLoop_skip total 1 rest st hf⟩
  | some s =>
    refine ⟨(s, 1), ?_⟩
    rw [runsLoop_cons, hf]
    show (if 1 < 1 then (s, 1)
      else if total / ((1 : ℕ) : ℝ) ≤ 420 then (s, 1)
      else feederRunsLoop total rest (s, 1)) = feederRunsLoop total rest (s, 1)
    have h420' : ¬ (total / ((1 : ℕ) : ℝ) ≤ 420) := by
      rw [Nat.cast_one, div_one]
      linarith
    rw [if_neg (by norm_num : ¬ (1 : ℕ) < 1), if_neg h420']

/-- If no run count of the list has a covering size, the loop returns the
    carried state unchanged. -/
lemma runsLoop_all_none (total : ℝ) :
    ∀ (ns : List ℕ) (st : String × ℕ),
      (∀ m ∈ ns, findFeederSize (total / (m : ℝ)) = none) →
      feederRunsLoop total ns st = st := by
  intro ns
  induction ns with
  | nil => intro st _; rfl
  | cons n rest ih =>
    intro st hall
    rw [runsLoop_skip total n rest st (hall n (List.mem_cons_self n rest))]
    exact ih st (fun m hm => hall m (List.mem_cons_of_mem n hm))

/-- Walking an interval of run counts that contains the first covered count
    n₀ ≥ 2 ends the search at exactly (s₀, n₀). -/
lemma runsLoop_range_spec (total : ℝ) (n₀ : ℕ) (s₀ : String)
    (hfound : findFeederSize (total / (n₀ : ℝ)) = some s₀)
    (hbefore : ∀ m : ℕ, 2 ≤ m → m < n₀ → findFeederSize (total / (m : ℝ)) = none) :
    ∀ (len k : ℕ) (st : String × ℕ), 2 ≤ k → k ≤ n₀ → n₀ < k + len →
      feederRunsLoop total (List.range' k len) st = (s₀, n₀) := by
  intro len
  induction len with
  | zero => intro k st _ hk hlt; omega
  | succ len ih =>
    intro k st h2 hk hlt
    rw [show List.range' k (len + 1) = k :: List.range' (k + 1) len from rfl]
    by_cases hkn : k = n₀
    · subst hkn
      exact runsLoop_hit total k (List.range' (k + 1) len) st s₀ hfound (by omega)
    · rw [runsLoop_skip total k _ st (hbefore k h2 (by omega))]
      exact ih (k + 1) st (by omega) (by omega) (by omega)

/-- The `> 400 A` branch of `calculate_main_feeder`, unfolded. -/
lemma calculate_main_feeder_gt400 (loads : List LoadInput) (df : ℝ)
    (h : 400 < feederTotal loads df) :
    calculate_main_feeder loads df =
      { total_amps := feederTotal loads df,
        cable_size := (feederRunsLoop (feederTotal loads df)
          (List.range' 1 9) ("TBD", 1)).1,
        parallel_runs := (feederRunsLoop (feederTotal loads df)
          (List.range' 1 9) ("TBD", 1)).2 } := by
  simp only [calculate_main_feeder]
  rw [if_pos h]

/-- The aggregated total of a single non-motor, non-continuous override
    load is just its override current. -/
lemma feederTotal_single_override (a : ℝ) :
    feederTotal [overrideLoad a] 1 = a := by
  unfold feederTotal motorSum otherSum maxMotorUnit unit_current overrideLoad
  norm_num

/-- C3 counterexample: a 6000 A feeder total is above the single-run
    ceiling, and a compliant parallel configuration exists (10 runs of 1500
    kcmil, 625 A ≥ 600 A per run), but the search stops at 9 runs and
    returns the untouched initial state: a single-run "TBD" result. -/
theorem c3_nine_run_cap_counterexample :
    (calculate_main_feeder [overrideLoad 6000] 1).total_amps = 6000 ∧
    (420 : ℝ) < 6000 ∧
    (calculate_main_feeder [overrideLoad 6000] 1).parallel_runs = 1 ∧
    (calculate_main_feeder [overrideLoad 6000] 1).cable_size = "TBD" ∧
    (2 ≤ 10 ∧ ∃ s ∈ feederSizes, (6000 : ℝ) / ((10 : ℕ) : ℝ) ≤ (ampD s 75 : ℝ)) := by
  have htot : feederTotal [overrideLoad 6000] 1 = 6000 :=
    feederTotal_single_override 6000
  have hres := calculate_main_feeder_gt400 [overrideLoad 6000] 1
    (by rw [htot]; norm_num)
  have hloop : feederRunsLoop (feederTotal [overrideLoad 6000] 1)
      (List.range' 1 9) ("TBD", 1) = ("TBD", 1) := by
    apply runsLoop_all_none
    intro m hm
    have hmb : 1 ≤ m ∧ m < 10 := by
      have := List.mem_range'_1.mp hm
      omega
    apply findFeederSize_none
    rw [htot]
    have hmpos : (0 : ℝ) < (m : ℝ) := by
      have : 0 < m := by omega
      exact_mod_cast this
    rw [lt_div_iff hmpos]
    have hm9 : (m : ℝ) ≤ 9 := by exact_mod_cast (by omega : m ≤ 9)
    nlinarith
  rw [hres, hloop]
  refine ⟨htot, by norm_num, rfl, rfl, by norm_num, "1500", by decide, ?_⟩
  rw [show ampD "1500" 75 = 625 from by decide]
  norm_num

/-- C3 (amended): whenever the aggregated total is above the 420 A
    single-run ceiling and within reach of the bounded search (total ≤
    5985 A = 9 runs × 665 A), the aggregator returns the smallest run count
    n ≥ 2 such that some permitted parallel size covers total/n, with the
    smallest such size, and never a single-run configuration; beyond 5985 A
    the 9-run search cap makes it return the single-run "TBD" sentinel
    instead (see the counterexample).  A feeder total of 707 A concretely
    yields 2 runs of size "500" with 75C ampacity 380 ≥ 353.5. -/
theorem c3_parallel_amended (loads : List LoadInput) (df : ℝ)
    (h1 : 420 < feederTotal loads df) (h2 : feederTotal loads df ≤ 5985) :
    feederParallelSpec loads df ∧
    ((calculate_main_feeder [overrideLoad 707] 1).total_amps = 707 ∧
     (calculate_main_feeder [overrideLoad 707] 1).parallel_runs = 2 ∧
     (calculate_main_feeder [overrideLoad 707] 1).cable_size = "500" ∧
     (353.5 : ℝ) ≤ (ampD (calculate_main_feeder [overrideLoad 707] 1).cable_size 75 : ℝ)) := by
  classical
  constructor
  · have h400 : 400 < feederTotal loads df := by linarith
    have hres := calculate_main_feeder_gt400 loads df h400
    have hP9 : 2 ≤ 9 ∧ feederTotal loads df ≤ 665 * (9 : ℕ) := by
      constructor
      · omega
      · push_cast
        linarith
    have hex : ∃ n : ℕ, 2 ≤ n ∧ feederTotal loads df ≤ 665 * (n : ℕ) := ⟨9, hP9⟩
    set n₀ := Nat.find hex with hn₀
    have hspec : 2 ≤ n₀ ∧ feederTotal loads df ≤ 665 * (n₀ : ℕ) := Nat.find_spec hex
    have hmin : ∀ m : ℕ, m < n₀ → ¬ (2 ≤ m ∧ feederTotal loads df ≤ 665 * (m : ℕ)) :=
      fun m hm => Nat.find_min hex hm
    have hn9 : n₀ ≤ 9 := Nat.find_le hP9
    have hn₀pos : (0 : ℝ) < (n₀ : ℝ) := by
      have h2n : 0 < n₀ := by omega
      exact_mod_cast h2n
    have hcover : feederTotal loads df / (n₀ : ℝ) ≤ 665 := by
      rw [div_le_iff hn₀pos]
      linarith [hspec.2]
    obtain ⟨s₀, hs₀⟩ := findFeederSize_some _ hcover
    have hbefore : ∀ m : ℕ, 2 ≤ m → m < n₀ →
        findFeederSize (feederTotal loads df / (m : ℝ)) = none := by
      intro m h2m hmn
      have hnot := hmin m hmn
      have hgt : 665 * (m : ℝ) < feederTotal loads df := by
        by_contra hcon
        push_neg at hcon
        exact hnot ⟨h2m, hcon⟩
      apply findFeederSize_none
      have hmpos : (0 : ℝ) < (m : ℝ) := by
        have : 0 < m := by omega
        exact_mod_cast this
      rw [lt_div_iff hmpos]
      linarith
    obtain ⟨st2, hst2⟩ := runsLoop_first_step (feederTotal loads df) h1
      (List.range' 2 8) ("TBD", 1)
    have hloop : feederRunsLoop (feederTotal loads df) (List.range' 1 9) ("TBD", 1) =
        (s₀, n₀) := by
      rw [show List.range' 1 9 = 1 :: List.range' 2 8 from rfl, hst2]
      exact runsLoop_range_spec (feederTotal loads df) n₀ s₀ hs₀ hbefore 8 2 st2
        (by omega) hspec.1 (by omega)
    have hsprops := findFeederSize_spec _ _ hs₀
    unfold feederParallelSpec
    rw [hres, hloop]
    dsimp only
    refine ⟨hspec.1, ⟨s₀, hsprops.1, hsprops.2⟩, ?_, ?_⟩
    · intro m h2m hcov
      obtain ⟨s, hsmem, hscov⟩ := hcov
      have hcap : ampD s 75 ≤ 665 := feeder_caps_le s hsmem
      have hmpos : (0 : ℝ) < (m : ℝ) := by
        have : 0 < m := by omega
        exact_mod_cast this
      have hc : feederTotal loads df / (m : ℝ) ≤ 665 :=
        le_trans hscov (by exact_mod_cast hcap)
      rw [div_le_iff hmpos] at hc
      exact Nat.find_le ⟨h2m, hc⟩
    · rw [hs₀]
      rfl
  · have htot : feederTotal [overrideLoad 707] 1 = 707 :=
      feederTotal_single_override 707
    have hres := calculate_main_feeder_gt400 [overrideLoad 707] 1
      (by rw [htot]; norm_num)
    have hn1 : findFeederSize (feederTotal [overrideLoad 707] 1 / ((1 : ℕ) : ℝ)) =
        none := by
      apply findFeederSize_none
      rw [htot]
      norm_num
    have hn2 : findFeederSize (feederTotal [overrideLoad 707] 1 / ((2 : ℕ) : ℝ)) =
        some "500" := by
      rw [htot]
      unfold findFeederSize feederSizes
      rw [show ((707 : ℝ) / ((2 : ℕ) : ℝ)) = 353.5 by norm_num]
      rw [List.find?_cons_of_neg _ (by
            simp only [Bool.and_eq_true, decide_eq_true_eq, not_and]
            intro _
            rw [show ampD "1/0" 75 = 150 from by decide]
            norm_num),
        List.find?_cons_of_neg _ (by
            simp only [Bool.and_eq_true, decide_eq_true_eq, not_and]
            intro _
            rw [show ampD "2/0" 75 = 175 from by decide]
            norm_num),
        List.find?_cons_of_neg _ (by
            simp only [Bool.and_eq_true, decide_eq_true_eq, not_and]
            intro _
            rw [show ampD "3/0" 75 = 200 from by decide]
            norm_num),
        List.find?_cons_of_neg _ (by
            simp only [Bool.and_eq_true, decide_eq_true_eq, not_and]
            intro _
            rw [show ampD "4/0" 75 = 230 from by decide]
            norm_num),
        List.find?_cons_of_neg _ (by
            simp only [Bool.and_eq_true, decide_eq_true_eq, not_and]
            intro _
            rw [show ampD "250" 75 = 255 from by decide]
            norm_num),
        List.find?_cons_of_neg _ (by
            simp only [Bool.and_eq_true, decide_eq_true_eq, not_and]
            intro _
            rw [show ampD "300" 75 = 285 from by decide]
            norm_num),
        List.find?_cons_of_neg _ (by
            simp only [Bool.and_eq_true, decide_eq_true_eq, not_and]
            intro _
            rw [show ampD "350" 75 = 310 from by decide]
            norm_num),
        List.find?_cons_of_neg _ (by
            simp only [Bool.and_eq_true, decide_eq_true_eq, not_and]
            intro _
            rw [show ampD "400" 75 = 335 from by decide]
            norm_num),
        List.find?_cons_of_pos _ (by
            simp only [Bool.and_eq_true]
            refine ⟨by decide, ?_⟩
            simp only [decide_eq_true_eq]
            rw [show ampD "500" 75 = 380 from by decide]
            norm_num)]
    have hloop : feederRunsLoop (feederTotal [overrideLoad 707] 1)
        (List.range' 1 9) ("TBD", 1) = ("500", 2) := by
      rw [show List.range' 1 9 = 1 :: 2 :: List.range' 3 7 from rfl]
      rw [runsLoop_skip _ 1 _ _ hn1]
      exact runsLoop_hit _ 2 _ _ "500" hn2 (by omega)
    rw [hres, hloop]
    refine ⟨htot, rfl, rfl, ?_⟩
    rw [show ampD "500" 75 = 380 from by decide]
    norm_num

/-- Witness for C3 (amended): the 707 A single-load schedule satisfies the
    hypotheses and the parallel-search specification. -/
theorem c3_parallel_amended_witness :
    420 < feederTotal [overrideLoad 707] 1 ∧
    feederTotal [overrideLoad 707] 1 ≤ 5985 ∧
    feederParallelSpec [overrideLoad 707] 1 := by
  have htot : feederTotal [overrideLoad 707] 1 = 707 :=
    feederTotal_single_override 707
  have h1 : (420 : ℝ) < feederTotal [overrideLoad 707] 1 := by rw [htot]; norm_num
  have h2 : feederTotal [overrideLoad 707] 1 ≤ 5985 := by rw [htot]; norm_num
  exact ⟨h1, h2, (c3_parallel_amended [overrideLoad 707] 1 h1 h2).1⟩

end CalculadoraNEC
